import Mathlib

set_option linter.unusedVariables false
set_option linter.unnecessarySeqFocus false

/-!
A verification development for the ribeye streaming aggregation pipeline.

The Rust sources are shallowly embedded: each processor's mutable state becomes a
Lean structure, `HashMap` aggregation stores become association lists updated by an
entry/or_insert-style upsert, `HashSet`s become `Finset`s, fallible operations
return `Except String`, and a Rust panic (e.g. `Option::unwrap` on `None`) is
modelled as an `Except.error`.  Machine integers (`u32`, `usize`, `u8`) are
modelled as `Nat`; none of the verified properties depend on wrap-around.
-/

/-- Peer IP addresses are only ever compared for equality and stored in maps/sets;
we model `std::net::IpAddr` as `Nat`. -/
abbrev IpAddr := Nat

/-- `bgpkit_parser::models::ElemType`. -/
inductive ElemType where
  | announce
  | withdraw
deriving DecidableEq

/-- An IP network, mirroring `ipnet::IpNet` with its `V4`/`V6` variants; the raw
address bits are abstracted to `Nat` and the mask length kept explicitly. -/
inductive IpNet where
  | v4 (addr : Nat) (len : Nat)
  | v6 (addr : Nat) (len : Nat)
deriving DecidableEq

/-- `IpNet::prefix_len()`. -/
def IpNet.pfxLen : IpNet → Nat
  | .v4 _ l => l
  | .v6 _ l => l

/-- Consecutive-duplicate collapsing, as `Vec::dedup` performs on the flattened
AS path when `to_u32_vec_opt(true)` is called. -/
def dedupConsec : List Nat → List Nat
  | [] => []
  | [a] => [a]
  | a :: b :: l => if a = b then dedupConsec (b :: l) else a :: dedupConsec (b :: l)

/-- An AS-path attribute.  `flat = none` models a path containing AS sets or
confederation segments that cannot be flattened to a plain `u32` sequence. -/
structure ASPath where
  flat : Option (List Nat)
deriving DecidableEq

/-- `AsPath::to_u32_vec_opt(dedup)` from bgpkit-parser: the flattened sequence,
with consecutive duplicates collapsed when `dedup` is true, or `none` when the
path is not flattenable. -/
def ASPath.to_u32_vec_opt (p : ASPath) (dedup : Bool) : Option (List Nat) :=
  p.flat.map (fun l => if dedup then dedupConsec l else l)

/-- `bgpkit_parser::BgpElem`, restricted to the fields the processors read.
The field `pfx` is the source's `elem.prefix.prefix` (the network of the NLRI). -/
structure BgpElem where
  elem_type : ElemType
  peer_ip : IpAddr
  peer_asn : Nat
  pfx : IpNet
  as_path : Option ASPath
deriving DecidableEq

/-- Snapshot timestamp; the source uses `chrono::NaiveDateTime` and reads the
calendar year/month/day plus the epoch seconds, which we carry directly. -/
structure Timestamp where
  year : Nat
  month : Nat
  day : Nat
  epoch : Nat
deriving DecidableEq

/-- `RibMeta` from `processors/meta.rs`. -/
structure RibMeta where
  project : String
  collector : String
  rib_dump_url : String
  timestamp : Timestamp
deriving DecidableEq

/-- `ProcessorMeta` from `processors/meta.rs`. -/
structure ProcessorMeta where
  name : String
  output_dir : String
deriving DecidableEq

/-- Zero-pad to two digits, as the source's `fmt` specifier does. -/
def pad2 (n : Nat) : String :=
  if n < 10 then "0" ++ toString n else toString n

/-- Zero-pad to four digits, as the source's `fmt` specifier does. -/
def pad4 (n : Nat) : String :=
  if n < 10 then "000" ++ toString n
  else if n < 100 then "00" ++ toString n
  else if n < 1000 then "0" ++ toString n
  else toString n

/-- The archival output path from `meta.rs` (`get_output_path`, called
`get_default_output_path` at its use sites): partitioned by processor name,
collector, year and month, with a filename carrying the calendar date and the
exact snapshot epoch. -/
def get_default_output_path (rib : RibMeta) (pm : ProcessorMeta) : String :=
  let dir := pm.output_dir ++ "/" ++ pm.name ++ "/" ++ rib.collector ++ "/"
      ++ pad4 rib.timestamp.year ++ "/" ++ pad2 rib.timestamp.month
  dir ++ "/" ++ pm.name ++ "_" ++ rib.collector ++ "_" ++ pad4 rib.timestamp.year
      ++ "-" ++ pad2 rib.timestamp.month ++ "-" ++ pad2 rib.timestamp.day
      ++ "_" ++ toString rib.timestamp.epoch ++ ".json.bz2"

/-- Modelled from the spec: `get_latest_output_path` is called throughout the
processors but absent from the `meta.rs` in this tree; per the spec's
output-target deriver it is the non-timestamped "latest" location, one per
processor, partitioned by collector, always overwritten. -/
def get_latest_output_path (rib : RibMeta) (pm : ProcessorMeta) : String :=
  pm.output_dir ++ "/" ++ pm.name ++ "/" ++ rib.collector ++ "/latest.json.bz2"

/-- Association-list lookup: the value stored at key `k`, if present.  Models
`HashMap::get`. -/
def alLookup {α β : Type} [DecidableEq α] (k : α) : List (α × β) → Option β
  | [] => none
  | (k1, v) :: l => if k = k1 then some v else alLookup k l

/-- Association-list upsert: models the `map.entry(k).or_insert(d)` followed by
an in-place mutation `f` of the stored value. -/
def alUpsert {α β : Type} [DecidableEq α] (k : α) (d : β) (f : β → β) :
    List (α × β) → List (α × β)
  | [] => [(k, f d)]
  | (k1, v) :: l => if k = k1 then (k1, f v) :: l else (k1, v) :: alUpsert k d f l

/-- Association-list insert-or-replace: models `HashMap::insert`. -/
def alInsert {α β : Type} [DecidableEq α] (k : α) (v : β) (m : List (α × β)) :
    List (α × β) :=
  alUpsert k v (fun _ => v) m

/-- Occurrence count of an element in a list. -/
def countL {α : Type} [DecidableEq α] (a : α) : List α → Nat
  | [] => 0
  | b :: l => (if b = a then 1 else 0) + countL a l

theorem alLookup_alUpsert {α β : Type} [DecidableEq α] (k k1 : α) (d : β) (f : β → β)
    (m : List (α × β)) :
    alLookup k1 (alUpsert k d f m) =
      if k1 = k then some (f ((alLookup k m).getD d)) else alLookup k1 m := by
  induction m with
  | nil =>
    by_cases h : k1 = k <;> simp [alUpsert, alLookup, h]
  | cons hd tl ih =>
    obtain ⟨k2, v⟩ := hd
    by_cases h2 : k = k2
    · subst h2
      by_cases h1 : k1 = k <;> simp [alUpsert, alLookup, h1]
    · have h2s : ¬ k2 = k := fun h => h2 h.symm
      by_cases h1 : k1 = k2
      · subst h1
        simp [alUpsert, h2, alLookup, h2s]
      · by_cases h0 : k1 = k
        · subst h0
          simp [alUpsert, h2, alLookup, h1, ih]
        · simp [alUpsert, h2, alLookup, h1, h0, ih]

theorem alLookup_alInsert {α β : Type} [DecidableEq α] (k k1 : α) (v : β)
    (m : List (α × β)) :
    alLookup k1 (alInsert k v m) = if k1 = k then some v else alLookup k1 m := by
  simp [alInsert, alLookup_alUpsert]

theorem countL_nonneg_iff_mem {α : Type} [DecidableEq α] (a : α) (l : List α) :
    countL a l ≠ 0 ↔ a ∈ l := by
  induction l with
  | nil => simp [countL]
  | cons b l ih =>
    by_cases h : b = a
    · subst h
      simp [countL]
    · have h1 : ¬ a = b := fun hh => h hh.symm
      simp [countL, h, h1, ih]

/-! ## Prefix2AsProcessor (`processors/pfx2as.rs`)

The map key in the source is `(elem.prefix.to_string(), origin)`; prefix
rendering is injective on networks, so we key directly by the network value. -/

/-- `Prefix2AsCount`: one output entry of the pfx2as processor. -/
structure Prefix2AsCount where
  pfx : IpNet
  asn : Nat
  count : Nat
deriving DecidableEq

/-- `Prefix2AsCollectorJson`: the per-snapshot archival artifact of pfx2as. -/
structure Prefix2AsCollectorJson where
  project : String
  collector : String
  rib_dump_url : String
  pfx2as : List Prefix2AsCount
deriving DecidableEq

/-- `Prefix2AsSummaryJson`: the cross-snapshot summary artifact of pfx2as. -/
structure Prefix2AsSummaryJson where
  rib_dump_urls : List String
  pfx2as : List Prefix2AsCount
deriving DecidableEq

/-- `Prefix2AsProcessor`'s state. -/
structure Pfx2asState where
  rib_meta : Option RibMeta
  processor_meta : ProcessorMeta
  pfx2as_map : List ((IpNet × Nat) × Nat)
deriving DecidableEq

/-- `Prefix2AsProcessor::new`. -/
def pfx2asNew (output_dir : String) : Pfx2asState :=
  { rib_meta := none
    processor_meta := { name := "pfx2as", output_dir := output_dir }
    pfx2as_map := [] }

/-- `Prefix2AsProcessor::reset_processor`: stores the new `RibMeta`.  (Note: the
source does not touch `pfx2as_map` here.) -/
def pfx2asReset (rib_meta : RibMeta) (s : Pfx2asState) : Pfx2asState :=
  { s with rib_meta := some rib_meta }

/-- The guard chain of `Prefix2AsProcessor::process_entry`: returns the update
key `(prefix, origin)` when the element qualifies (ANNOUNCE, non-default route,
flattenable path with a last AS), else `none`.  `to_u32_vec_opt(false)` — no
consecutive-duplicate collapsing — exactly as in the source. -/
def pfx2asQualifies (e : BgpElem) : Option (IpNet × Nat) :=
  if e.elem_type ≠ .announce then none
  else if e.pfx.pfxLen = 0 then none
  else match e.as_path with
    | none => none
    | some p =>
      match p.to_u32_vec_opt false with
      | none => none
      | some seq =>
        match seq.getLast? with
        | none => none
        | some origin => some (e.pfx, origin)

/-- `Prefix2AsProcessor::process_entry`. -/
def pfx2asProcessEntry (e : BgpElem) (s : Pfx2asState) : Pfx2asState :=
  match pfx2asQualifies e with
  | none => s
  | some k => { s with pfx2as_map := alUpsert k 0 (fun c => c + 1) s.pfx2as_map }

/-- One pipeline pass of pfx2as over an element sequence (the per-element calls
the Coordinator makes in source order). -/
def pfx2asRun (elems : List BgpElem) (s : Pfx2asState) : Pfx2asState :=
  elems.foldl (fun s e => pfx2asProcessEntry e s) s

/-- `Prefix2AsProcessor::get_count_vec`. -/
def pfx2asGetCountVec (s : Pfx2asState) : List Prefix2AsCount :=
  s.pfx2as_map.map (fun kv => { pfx := kv.1.1, asn := kv.1.2, count := kv.2 })

/-- Number of elements of `elems` that the pfx2as guards admit with key `k`
(the code-side count). -/
def pfx2asCodeCount (elems : List BgpElem) (k : IpNet × Nat) : Nat :=
  (elems.filter (fun e => pfx2asQualifies e = some k)).length

/-- The last AS of an element's usable (flattenable) path, if any — the
spec-side notion of the origin AS. -/
def pathLastAs (e : BgpElem) : Option Nat :=
  (e.as_path.bind (fun p => p.to_u32_vec_opt false)).bind List.getLast?

/-- Spec-side count for Prefix2AsProcessor: the number of ANNOUNCE elements with
destination network `P` of nonzero mask length whose usable path's last AS
number is `A`. -/
def pfx2asSpecCount (elems : List BgpElem) (P : IpNet) (A : Nat) : Nat :=
  (elems.filter (fun e =>
    e.elem_type = .announce ∧ e.pfx = P ∧ e.pfx.pfxLen ≠ 0 ∧ pathLastAs e = some A)).length

theorem pfx2asQualifies_iff (e : BgpElem) (P : IpNet) (A : Nat) :
    pfx2asQualifies e = some (P, A) ↔
      (e.elem_type = .announce ∧ e.pfx = P ∧ e.pfx.pfxLen ≠ 0 ∧ pathLastAs e = some A) := by
  unfold pfx2asQualifies pathLastAs
  by_cases ht : e.elem_type = ElemType.announce
  · cases hp : e.as_path with
    | none =>
      by_cases h0 : e.pfx.pfxLen = 0 <;> simp [ht, h0, hp]
    | some p =>
      cases hv : p.to_u32_vec_opt false with
      | none =>
        by_cases h0 : e.pfx.pfxLen = 0 <;> simp [ht, h0, hp, hv]
      | some seq =>
        cases hl : seq.getLast? with
        | none =>
          by_cases h0 : e.pfx.pfxLen = 0 <;> simp [ht, h0, hp, hv, hl]
        | some origin =>
          by_cases h0 : e.pfx.pfxLen = 0
          · simp [ht, h0, hp, hv, hl]
          · simp [ht, h0, hp, hv, hl, eq_comm]
  · simp [ht]

theorem pfx2asCodeCount_eq_spec (elems : List BgpElem) (P : IpNet) (A : Nat) :
    pfx2asCodeCount elems (P, A) = pfx2asSpecCount elems P A := by
  unfold pfx2asCodeCount pfx2asSpecCount
  induction elems with
  | nil => rfl
  | cons e l ih =>
    simp only [List.filter_cons]
    by_cases h : pfx2asQualifies e = some (P, A)
    · have h2 : (e.elem_type = ElemType.announce ∧ e.pfx = P ∧ e.pfx.pfxLen ≠ 0 ∧
          pathLastAs e = some A) := (pfx2asQualifies_iff e P A).mp h
      have hP : ¬ P.pfxLen = 0 := h2.2.1 ▸ h2.2.2.1
      simp [h, h2, hP, ih]
    · have h2 : ¬ (e.elem_type = ElemType.announce ∧ e.pfx = P ∧ e.pfx.pfxLen ≠ 0 ∧
          pathLastAs e = some A) := fun hc => h ((pfx2asQualifies_iff e P A).mpr hc)
      simp [h, h2, ih]

theorem pfx2asRun_meta (elems : List BgpElem) (s : Pfx2asState) :
    (pfx2asRun elems s).rib_meta = s.rib_meta ∧
    (pfx2asRun elems s).processor_meta = s.processor_meta := by
  induction elems generalizing s with
  | nil => exact ⟨rfl, rfl⟩
  | cons e l ih =>
    have h := ih (pfx2asProcessEntry e s)
    unfold pfx2asRun at h ⊢
    rw [List.foldl_cons]
    refine ⟨h.1.trans ?_, h.2.trans ?_⟩ <;>
      (unfold pfx2asProcessEntry; cases pfx2asQualifies e <;> rfl)

theorem pfx2asRun_lookup (elems : List BgpElem) (s : Pfx2asState) (k : IpNet × Nat) :
    alLookup k (pfx2asRun elems s).pfx2as_map =
      if pfx2asCodeCount elems k = 0 then alLookup k s.pfx2as_map
      else some ((alLookup k s.pfx2as_map).getD 0 + pfx2asCodeCount elems k) := by
  induction elems generalizing s with
  | nil => simp [pfx2asRun, pfx2asCodeCount]
  | cons e l ih =>
    unfold pfx2asRun at ih ⊢
    rw [List.foldl_cons]
    rw [ih]
    by_cases hq : pfx2asQualifies e = some k
    · have hcount : pfx2asCodeCount (e :: l) k = pfx2asCodeCount l k + 1 := by
        unfold pfx2asCodeCount
        simp [List.filter_cons, hq, Nat.add_comm]
      have hmap : alLookup k (pfx2asProcessEntry e s).pfx2as_map =
          some ((alLookup k s.pfx2as_map).getD 0 + 1) := by
        unfold pfx2asProcessEntry
        rw [hq]
        simp [alLookup_alUpsert]
      rw [hcount, hmap]
      by_cases hl : pfx2asCodeCount l k = 0 <;> simp [hl] <;> omega
    · have hcount : pfx2asCodeCount (e :: l) k = pfx2asCodeCount l k := by
        unfold pfx2asCodeCount
        simp [List.filter_cons, hq]
      have hmap : (pfx2asProcessEntry e s).pfx2as_map =
          if pfx2asQualifies e = none then s.pfx2as_map
          else alUpsert ((pfx2asQualifies e).getD (e.pfx, 0)) 0 (fun c => c + 1) s.pfx2as_map := by
        unfold pfx2asProcessEntry
        cases pfx2asQualifies e <;> simp
      have hmap2 : alLookup k (pfx2asProcessEntry e s).pfx2as_map = alLookup k s.pfx2as_map := by
        rw [hmap]
        cases hq2 : pfx2asQualifies e with
        | none => simp
        | some k2 =>
          have hk2 : ¬ k = k2 := fun h => hq (by rw [hq2, h])
          simp [alLookup_alUpsert, hk2]
      rw [hcount, hmap2]

/-! ## PeerStatsProcessor (`processors/peer_stats.rs`) -/

/-- `PeerInfo`: the per-peer aggregation record.  Observed networks are stored
as `(addr, len)` pairs in `Finset`s, mirroring the `HashSet<Ipv4Net>` /
`HashSet<Ipv6Net>` fields. -/
structure PeerInfo where
  collector : Option String
  ip : IpAddr
  asn : Nat
  ipv4_pfxs : Finset (Nat × Nat)
  ipv6_pfxs : Finset (Nat × Nat)
  num_connected_asns : Finset Nat
  ipv4_default : Bool
  ipv6_default : Bool
deriving DecidableEq

/-- `PeerInfo::new_from_ip`. -/
def PeerInfo.new_from_ip (ip : IpAddr) (asn : Nat) (collector : Option String) : PeerInfo :=
  { collector := collector
    ip := ip
    asn := asn
    ipv4_pfxs := ∅
    ipv6_pfxs := ∅
    num_connected_asns := ∅
    ipv4_default := false
    ipv6_default := false }

/-- `PeerInfoEntry`: the serialized per-peer record (set cardinalities, not the
sets). -/
structure PeerInfoEntry where
  ip : IpAddr
  collector : Option String
  asn : Nat
  num_v4_pfxs : Nat
  num_v6_pfxs : Nat
  num_connected_asns : Nat
  has_v4_default : Bool
  has_v6_default : Bool
deriving DecidableEq

/-- `impl From<&PeerInfo> for PeerInfoEntry`. -/
def peerInfoToEntry (p : PeerInfo) : PeerInfoEntry :=
  { ip := p.ip
    collector := p.collector
    asn := p.asn
    num_v4_pfxs := p.ipv4_pfxs.card
    num_v6_pfxs := p.ipv6_pfxs.card
    num_connected_asns := p.num_connected_asns.card
    has_v4_default := p.ipv4_default
    has_v6_default := p.ipv6_default }

/-- `PeerInfoCollectorJson`: the per-snapshot archival artifact of peer-stats.
The source stores `peers` in a `HashSet` hashed by IP; the map it is collected
from is keyed by IP, so a plain list of entries is a faithful model. -/
structure PeerInfoCollectorJson where
  project : String
  collector : String
  rib_dump_url : String
  peers : List PeerInfoEntry
deriving DecidableEq

/-- `PeerInfoSummaryJson`: the cross-snapshot summary artifact of peer-stats. -/
structure PeerInfoSummaryJson where
  rib_dump_urls : List String
  peers : List PeerInfoEntry
deriving DecidableEq

/-- `PeerStatsProcessor`'s state. -/
structure PeerStatsState where
  rib_meta : Option RibMeta
  processor_meta : ProcessorMeta
  peer_info_map : List (IpAddr × PeerInfo)
deriving DecidableEq

/-- `PeerStatsProcessor::new`. -/
def peerStatsNew (output_dir : String) : PeerStatsState :=
  { rib_meta := none
    processor_meta := { name := "peer-stats", output_dir := output_dir }
    peer_info_map := [] }

/-- `PeerStatsProcessor::reset_processor`: stores the new `RibMeta`.  (The
source does not touch `peer_info_map` here.) -/
def peerStatsReset (rib_meta : RibMeta) (s : PeerStatsState) : PeerStatsState :=
  { s with rib_meta := some rib_meta }

/-- The mutation `process_entry` applies to the (created-if-absent) peer record:
non-ANNOUNCE elements leave it untouched; ANNOUNCE elements record the first hop
of the usable path, set the default flag when the mask length is zero, and
insert the network into the address-family set. -/
def peerStatsUpdateInfo (e : BgpElem) (info : PeerInfo) : PeerInfo :=
  if e.elem_type ≠ .announce then info
  else
    let info :=
      match (e.as_path.bind (fun p => p.to_u32_vec_opt true)).bind List.head? with
      | some next_hop =>
        { info with num_connected_asns := insert next_hop info.num_connected_asns }
      | none => info
    match e.pfx with
    | .v4 a l =>
      { info with
        ipv4_default := if l = 0 then true else info.ipv4_default
        ipv4_pfxs := insert (a, l) info.ipv4_pfxs }
    | .v6 a l =>
      { info with
        ipv6_default := if l = 0 then true else info.ipv6_default
        ipv6_pfxs := insert (a, l) info.ipv6_pfxs }

/-- `PeerStatsProcessor::process_entry`: creation-if-absent of the peer record
happens for every element, then the announce-only mutation. -/
def peerStatsProcessEntry (e : BgpElem) (s : PeerStatsState) : PeerStatsState :=
  let collector := s.rib_meta.map (fun r => r.collector)
  let deflt := PeerInfo.new_from_ip e.peer_ip e.peer_asn collector
  let m := alUpsert e.peer_ip deflt (peerStatsUpdateInfo e) s.peer_info_map
  { s with peer_info_map := m }

/-- One pipeline pass of peer-stats over an element sequence. -/
def peerStatsRun (elems : List BgpElem) (s : PeerStatsState) : PeerStatsState :=
  elems.foldl (fun s e => peerStatsProcessEntry e s) s

/-- The peer entries serialized from the processor's own in-memory map. -/
def peerStatsEntries (s : PeerStatsState) : List PeerInfoEntry :=
  s.peer_info_map.map (fun kv => peerInfoToEntry kv.2)

/-! ## As2relProcessor (`processors/as2rel.rs`) -/

/-- The fixed reference set of Tier-1 AS numbers (`const TIER1`). -/
def TIER1 : List Nat :=
  [6762, 12956, 2914, 3356, 6453, 1239, 701, 6461, 3257, 1299, 3491, 7018, 3320,
   5511, 6830, 174, 6939]

/-- `As2relEntry`: one output entry of the as2rel processor. -/
structure As2relEntry where
  asn1 : Nat
  asn2 : Nat
  paths_count : Nat
  peers_count : Nat
  rel : Nat
deriving DecidableEq

/-- `As2relCollectorJson`: the per-snapshot archival artifact of as2rel. -/
structure As2relCollectorJson where
  project : String
  collector : String
  rib_dump_url : String
  as2rel : List As2relEntry
deriving DecidableEq

/-- `As2relSummaryJson`: the cross-snapshot summary artifact of as2rel. -/
structure As2relSummaryJson where
  rib_dump_urls : List String
  as2rel : List As2relEntry
deriving DecidableEq

/-- The as2rel aggregation key: `(asn1, asn2, relationship code)`. -/
abbrev As2relKey := Nat × Nat × Nat

/-- `As2relProcessor`'s state; the map value is `(message count, observer set)`. -/
structure As2relState where
  rib_meta : Option RibMeta
  processor_meta : ProcessorMeta
  as2rel_map : List (As2relKey × (Nat × Finset IpAddr))
deriving DecidableEq

/-- `As2relProcessor::new`. -/
def as2relNew (output_dir : String) : As2relState :=
  { rib_meta := none
    processor_meta := { name := "as2rel", output_dir := output_dir }
    as2rel_map := [] }

/-- `As2relProcessor::reset_processor`: stores the new `RibMeta`.  (The source
does not touch `as2rel_map` here.) -/
def as2relReset (rib_meta : RibMeta) (s : As2relState) : As2relState :=
  { s with rib_meta := some rib_meta }

/-- The `entry(k).or_insert((0, HashSet::new()))` + `*msg_count += 1` +
`peers.insert(peer_ip)` update applied to one key. -/
def as2relBump (p : IpAddr) (k : As2relKey)
    (m : List (As2relKey × (Nat × Finset IpAddr))) :
    List (As2relKey × (Nat × Finset IpAddr)) :=
  alUpsert k (0, ∅) (fun cv => (cv.1 + 1, insert p cv.2)) m

/-- Consecutive pairs of a list, as `tuple_windows::<(_, _)>()` yields them. -/
def adjPairs (l : List Nat) : List (Nat × Nat) :=
  l.zip l.tail

/-- The guard chain of `As2relProcessor::process_entry`: ANNOUNCE, non-default
route, flattenable path; returns the deduplicated `u32` path
(`to_u32_vec_opt(true)`). -/
def as2relQualifies (e : BgpElem) : Option (List Nat) :=
  if e.elem_type ≠ .announce then none
  else if e.pfx.pfxLen = 0 then none
  else match e.as_path with
    | none => none
    | some p => p.to_u32_vec_opt true

/-- `As2relProcessor::process_entry`.  Code-0 evidence is recorded for every
consecutive pair as received; if the path holds a Tier-1 AS, the path is
reversed (origin first), the first Tier-1 index `t` is located, and — provided
`t < len - 1` — code-1 evidence keyed `(hop i+1, hop i, 1)` is recorded for
each `i < t` (the `for i in 0..first_tier1` loop). -/
def as2relProcessEntry (e : BgpElem) (s : As2relState) : As2relState :=
  match as2relQualifies e with
  | none => s
  | some path =>
    let m1 := (adjPairs path).foldl
      (fun m ab => as2relBump e.peer_ip (ab.1, ab.2, 0) m) s.as2rel_map
    if path.any (fun x => TIER1.contains x) then
      let rev := path.reverse
      let t := rev.findIdx (fun x => TIER1.contains x)
      if t < rev.length - 1 then
        let keys := ((adjPairs rev).take t).map (fun ab => ((ab.2, ab.1, 1) : As2relKey))
        let m2 := keys.foldl (fun m k => as2relBump e.peer_ip k m) m1
        { s with as2rel_map := m2 }
      else { s with as2rel_map := m1 }
    else { s with as2rel_map := m1 }

/-- `As2relProcessor::get_count_vec`. -/
def as2relGetCountVec (s : As2relState) : List As2relEntry :=
  s.as2rel_map.map (fun kv =>
    { asn1 := kv.1.1, asn2 := kv.1.2.1, paths_count := kv.2.1,
      peers_count := kv.2.2.card, rel := kv.1.2.2 })

/-! ## Prefix2DistProcessor (`processors/pfx2dist.rs`) -/

/-- `u32::MAX`, the seed of the minimum-distance fold. -/
def U32_MAX : Nat := 4294967295

/-- `Prefix2Dist`: one output entry of the pfx2dist processor. -/
structure Prefix2Dist where
  pfx : IpNet
  collector_asn : Nat
  distance : Nat
deriving DecidableEq

/-- `Prefix2DistCollectorJson`: the per-snapshot archival artifact of pfx2dist. -/
structure Prefix2DistCollectorJson where
  project : String
  collector : String
  rib_dump_url : String
  pfx2dist : List Prefix2Dist
deriving DecidableEq

/-- `Prefix2DistSummaryJson`: the cross-snapshot summary artifact of pfx2dist. -/
structure Prefix2DistSummaryJson where
  rib_dump_urls : List String
  pfx2dist : List Prefix2Dist
deriving DecidableEq

/-- `Prefix2DistProcessor`'s state. -/
structure Pfx2distState where
  rib_meta : Option RibMeta
  processor_meta : ProcessorMeta
  pfx2dist_map : List ((IpNet × Nat) × Nat)
deriving DecidableEq

/-- `Prefix2DistProcessor::new`. -/
def pfx2distNew (output_dir : String) : Pfx2distState :=
  { rib_meta := none
    processor_meta := { name := "pfx2dist", output_dir := output_dir }
    pfx2dist_map := [] }

/-- `Prefix2DistProcessor::reset_processor`: stores the new `RibMeta`.  (The
source does not touch `pfx2dist_map` here.) -/
def pfx2distReset (rib_meta : RibMeta) (s : Pfx2distState) : Pfx2distState :=
  { s with rib_meta := some rib_meta }

/-- `Prefix2DistProcessor::process_entry`: keyed by (network, head of the
deduplicated path); keeps the minimum observed path length, seeded at
`u32::MAX`. -/
def pfx2distProcessEntry (e : BgpElem) (s : Pfx2distState) : Pfx2distState :=
  if e.elem_type ≠ .announce then s
  else if e.pfx.pfxLen = 0 then s
  else match e.as_path with
    | none => s
    | some p =>
      match p.to_u32_vec_opt true with
      | none => s
      | some seq =>
        match seq.head? with
        | none => s
        | some collector =>
          let upd := fun d => if seq.length < d then seq.length else d
          let m := alUpsert (e.pfx, collector) U32_MAX upd s.pfx2dist_map
          { s with pfx2dist_map := m }

/-! ## Output plumbing (`processors/mod.rs` trait defaults and the per-variant
`output_paths` / `to_result_string`)

A Rust panic — `Option::unwrap` on the unset `rib_meta` — is modelled as an
`Except.error`; the successful branch of `to_result_string` carries the
structured document (JSON serialization is injective, so document equality
models byte-identity of the written artifact). -/

/-- `Prefix2AsProcessor::output_paths`: unwraps `rib_meta` (panics when unset),
else both the archival and the latest target. -/
def pfx2asOutputPaths (s : Pfx2asState) : Except String (Option (List String)) :=
  match s.rib_meta with
  | none => .error "pfx2as: output_paths unwrapped an unset rib_meta"
  | some m =>
    .ok (some [get_default_output_path m s.processor_meta,
               get_latest_output_path m s.processor_meta])

/-- `Prefix2AsProcessor::to_result_string`: unwraps `rib_meta` (panics when
unset), else the archival document. -/
def pfx2asToResultString (s : Pfx2asState) : Except String (Option Prefix2AsCollectorJson) :=
  match s.rib_meta with
  | none => .error "pfx2as: to_result_string unwrapped an unset rib_meta"
  | some m =>
    .ok (some { project := m.project, collector := m.collector,
                rib_dump_url := m.rib_dump_url, pfx2as := pfx2asGetCountVec s })

/-- An abstract store keyed by target string, holding pfx2as documents. -/
abbrev Pfx2asFs := String → Option Prefix2AsCollectorJson

/-- Writing one pfx2as document to one target (overwrite). -/
def fsWritePfx2as (path : String) (d : Prefix2AsCollectorJson) (fs : Pfx2asFs) : Pfx2asFs :=
  fun q => if q = path then some d else fs q

/-- The `MessageProcessor::output` default, specialized to pfx2as: skip when no
paths, skip when no result document, else write the document to every target. -/
def pfx2asOutput (s : Pfx2asState) (fs : Pfx2asFs) : Except String Pfx2asFs :=
  match pfx2asOutputPaths s with
  | .error msg => .error msg
  | .ok none => .ok fs
  | .ok (some paths) =>
    match pfx2asToResultString s with
    | .error msg => .error msg
    | .ok none => .ok fs
    | .ok (some doc) => .ok (paths.foldl (fun fs p => fsWritePfx2as p doc fs) fs)

/-- `PeerStatsProcessor::output_paths`. -/
def peerStatsOutputPaths (s : PeerStatsState) : Except String (Option (List String)) :=
  match s.rib_meta with
  | none => .error "peer-stats: output_paths unwrapped an unset rib_meta"
  | some m =>
    .ok (some [get_default_output_path m s.processor_meta,
               get_latest_output_path m s.processor_meta])

/-- `PeerStatsProcessor::to_result_string`. -/
def peerStatsToResultString (s : PeerStatsState) : Except String (Option PeerInfoCollectorJson) :=
  match s.rib_meta with
  | none => .error "peer-stats: to_result_string unwrapped an unset rib_meta"
  | some m =>
    .ok (some { project := m.project, collector := m.collector,
                rib_dump_url := m.rib_dump_url, peers := peerStatsEntries s })

/-- An abstract store keyed by target string, holding peer-stats documents. -/
abbrev PeerStatsFs := String → Option PeerInfoCollectorJson

/-- Writing one peer-stats document to one target (overwrite). -/
def fsWritePeerStats (path : String) (d : PeerInfoCollectorJson) (fs : PeerStatsFs) : PeerStatsFs :=
  fun q => if q = path then some d else fs q

/-- The `MessageProcessor::output` default, specialized to peer-stats. -/
def peerStatsOutput (s : PeerStatsState) (fs : PeerStatsFs) : Except String PeerStatsFs :=
  match peerStatsOutputPaths s with
  | .error msg => .error msg
  | .ok none => .ok fs
  | .ok (some paths) =>
    match peerStatsToResultString s with
    | .error msg => .error msg
    | .ok none => .ok fs
    | .ok (some doc) => .ok (paths.foldl (fun fs p => fsWritePeerStats p doc fs) fs)

/-- `As2relProcessor::output_paths`. -/
def as2relOutputPaths (s : As2relState) : Except String (Option (List String)) :=
  match s.rib_meta with
  | none => .error "as2rel: output_paths unwrapped an unset rib_meta"
  | some m =>
    .ok (some [get_default_output_path m s.processor_meta,
               get_latest_output_path m s.processor_meta])

/-- `As2relProcessor::to_result_string`. -/
def as2relToResultString (s : As2relState) : Except String (Option As2relCollectorJson) :=
  match s.rib_meta with
  | none => .error "as2rel: to_result_string unwrapped an unset rib_meta"
  | some m =>
    .ok (some { project := m.project, collector := m.collector,
                rib_dump_url := m.rib_dump_url, as2rel := as2relGetCountVec s })

/-- An abstract store keyed by target string, holding as2rel documents. -/
abbrev As2relFs := String → Option As2relCollectorJson

/-- Writing one as2rel document to one target (overwrite). -/
def fsWriteAs2rel (path : String) (d : As2relCollectorJson) (fs : As2relFs) : As2relFs :=
  fun q => if q = path then some d else fs q

/-- The `MessageProcessor::output` default, specialized to as2rel. -/
def as2relOutput (s : As2relState) (fs : As2relFs) : Except String As2relFs :=
  match as2relOutputPaths s with
  | .error msg => .error msg
  | .ok none => .ok fs
  | .ok (some paths) =>
    match as2relToResultString s with
    | .error msg => .error msg
    | .ok none => .ok fs
    | .ok (some doc) => .ok (paths.foldl (fun fs p => fsWriteAs2rel p doc fs) fs)

/-- `Prefix2DistProcessor`'s count vector (`get_count_vec`). -/
def pfx2distGetCountVec (s : Pfx2distState) : List Prefix2Dist :=
  s.pfx2dist_map.map (fun kv =>
    { pfx := kv.1.1, collector_asn := kv.1.2, distance := kv.2 })

/-- `Prefix2DistProcessor::output_paths`. -/
def pfx2distOutputPaths (s : Pfx2distState) : Except String (Option (List String)) :=
  match s.rib_meta with
  | none => .error "pfx2dist: output_paths unwrapped an unset rib_meta"
  | some m =>
    .ok (some [get_default_output_path m s.processor_meta,
               get_latest_output_path m s.processor_meta])

/-- `Prefix2DistProcessor::to_result_string`. -/
def pfx2distToResultString (s : Pfx2distState) : Except String (Option Prefix2DistCollectorJson) :=
  match s.rib_meta with
  | none => .error "pfx2dist: to_result_string unwrapped an unset rib_meta"
  | some m =>
    .ok (some { project := m.project, collector := m.collector,
                rib_dump_url := m.rib_dump_url, pfx2dist := pfx2distGetCountVec s })

/-- An abstract store keyed by target string, holding pfx2dist documents. -/
abbrev Pfx2distFs := String → Option Prefix2DistCollectorJson

/-- Writing one pfx2dist document to one target (overwrite). -/
def fsWritePfx2dist (path : String) (d : Prefix2DistCollectorJson) (fs : Pfx2distFs) : Pfx2distFs :=
  fun q => if q = path then some d else fs q

/-- The `MessageProcessor::output` default, specialized to pfx2dist. -/
def pfx2distOutput (s : Pfx2distState) (fs : Pfx2distFs) : Except String Pfx2distFs :=
  match pfx2distOutputPaths s with
  | .error msg => .error msg
  | .ok none => .ok fs
  | .ok (some paths) =>
    match pfx2distToResultString s with
    | .error msg => .error msg
    | .ok none => .ok fs
    | .ok (some doc) => .ok (paths.foldl (fun fs p => fsWritePfx2dist p doc fs) fs)

/-! ## The Coordinator (`RibEye::process_mrt_file` in `lib.rs`)

Specialized to a pipeline of pfx2as processors.  The run is instrumented with a
counter of `process_entry` invocations so that "the Coordinator never calls
process_entry on that processor" becomes a checkable statement; the counter is
incremented exactly once per (element, processor) call the source makes. -/

/-- The outcome of one `process_mrt_file` run. -/
structure MrtRunResult where
  procs : List Pfx2asState
  fs : Pfx2asFs
  entry_calls : Nat

/-- The `for processor in &mut self.processors { processor.output()?; }` loop:
the first failing output aborts and propagates. -/
def outputAll (procs : List Pfx2asState) (fs : Pfx2asFs) : Except String Pfx2asFs :=
  match procs with
  | [] => .ok fs
  | p :: rest =>
    match pfx2asOutput p fs with
    | .error msg => .error msg
    | .ok fs1 => outputAll rest fs1

/-- `RibEye::process_mrt_file`: returns immediately when no processors are
registered; otherwise feeds every element to every processor in order, then
calls every processor's `output`.  No target-existence check appears anywhere
on this path. -/
def processMrtFile (procs : List Pfx2asState) (msgs : List BgpElem) (fs : Pfx2asFs) :
    Except String MrtRunResult :=
  if procs.isEmpty then .ok { procs := procs, fs := fs, entry_calls := 0 }
  else
    let r := msgs.foldl (fun (acc : List Pfx2asState × Nat) (msg : BgpElem) =>
      (acc.1.map (fun p => pfx2asProcessEntry msg p), acc.2 + acc.1.length)) (procs, 0)
    match outputAll r.1 fs with
    | .error msg => .error msg
    | .ok fs1 => .ok { procs := r.1, fs := fs1, entry_calls := r.2 }

/-! ## The summarize protocol (`summarize_latest` of each variant)

Reading each snapshot's "latest" artifact is modelled by supplying, per
`RibMeta`, the read outcome: `some doc` for a readable artifact, `none` for a
missing/corrupt one. -/

/-- The shared read-and-fold loop of every `summarize_latest`: an unreadable
artifact is skipped when `ignore_error` is set, else the whole call fails with
the failing target's path; a readable artifact is folded into the accumulator. -/
def foldArtifacts {Doc M : Type} (pm : ProcessorMeta) (step : M → Doc → M)
    (ignore_error : Bool) (acc : M) : List (RibMeta × Option Doc) → Except String M
  | [] => .ok acc
  | (meta, d) :: rest =>
    match d with
    | none =>
      if ignore_error then foldArtifacts pm step ignore_error acc rest
      else .error ("failed to read " ++ get_latest_output_path meta pm)
    | some doc => foldArtifacts pm step ignore_error (step acc doc) rest

/-- Folding one pfx2as artifact into the merged map: per key, counts add. -/
def pfx2asMergeStep (m : List ((IpNet × Nat) × Nat)) (d : Prefix2AsCollectorJson) :
    List ((IpNet × Nat) × Nat) :=
  d.pfx2as.foldl (fun m ent => alUpsert (ent.pfx, ent.asn) 0 (fun c => c + ent.count) m) m

/-- `Prefix2AsProcessor::summarize_latest` up to the final write: the summary
document it produces (or the error that aborts the call before any write). -/
def pfx2asSummarizeLatest (s : Pfx2asState)
    (inputs : List (RibMeta × Option Prefix2AsCollectorJson)) (ignore_error : Bool) :
    Except String Prefix2AsSummaryJson :=
  match foldArtifacts s.processor_meta pfx2asMergeStep ignore_error [] inputs with
  | .error msg => .error msg
  | .ok m =>
    .ok { rib_dump_urls := inputs.map (fun i => i.1.rib_dump_url),
          pfx2as := m.map (fun kv => { pfx := kv.1.1, asn := kv.1.2, count := kv.2 }) }

/-- Folding one as2rel artifact into the merged map: per exact key, both the
path count and the peer count add. -/
def as2relMergeStep (m : List (As2relKey × (Nat × Nat))) (d : As2relCollectorJson) :
    List (As2relKey × (Nat × Nat)) :=
  d.as2rel.foldl (fun m ent =>
    alUpsert (ent.asn1, ent.asn2, ent.rel) (0, 0)
      (fun cv => (cv.1 + ent.paths_count, cv.2 + ent.peers_count)) m) m

/-- `As2relProcessor::summarize_latest` up to the final write. -/
def as2relSummarizeLatest (s : As2relState)
    (inputs : List (RibMeta × Option As2relCollectorJson)) (ignore_error : Bool) :
    Except String As2relSummaryJson :=
  match foldArtifacts s.processor_meta as2relMergeStep ignore_error [] inputs with
  | .error msg => .error msg
  | .ok m =>
    .ok { rib_dump_urls := inputs.map (fun i => i.1.rib_dump_url),
          as2rel := m.map (fun kv =>
            { asn1 := kv.1.1, asn2 := kv.1.2.1, paths_count := kv.2.1,
              peers_count := kv.2.2, rel := kv.1.2.2 }) }

/-- Folding one peer-stats artifact into the merged map: `HashMap::insert` per
entry, keyed by IP — later artifacts replace earlier records outright. -/
def peerStatsMergeStep (m : List (IpAddr × PeerInfoEntry)) (d : PeerInfoCollectorJson) :
    List (IpAddr × PeerInfoEntry) :=
  d.peers.foldl (fun m ent => alInsert ent.ip ent m) m

/-- `PeerStatsProcessor::summarize_latest` up to the final write.  Mirroring the
source exactly: the locally merged `peer_info_map` is computed and then never
read — the written `peers` come from the processor's own in-memory
`self.peer_info_map`. -/
def peerStatsSummarizeLatest (s : PeerStatsState)
    (inputs : List (RibMeta × Option PeerInfoCollectorJson)) (ignore_error : Bool) :
    Except String PeerInfoSummaryJson :=
  match foldArtifacts s.processor_meta peerStatsMergeStep ignore_error [] inputs with
  | .error msg => .error msg
  | .ok _peer_info_map =>
    .ok { rib_dump_urls := inputs.map (fun i => i.1.rib_dump_url),
          peers := peerStatsEntries s }

/-- Folding one pfx2dist artifact into the merged map: per key, keep the
minimum distance, seeded at `u32::MAX`. -/
def pfx2distMergeStep (m : List ((IpNet × Nat) × Nat)) (d : Prefix2DistCollectorJson) :
    List ((IpNet × Nat) × Nat) :=
  d.pfx2dist.foldl (fun m ent =>
    alUpsert (ent.pfx, ent.collector_asn) U32_MAX
      (fun dist => if ent.distance < dist then ent.distance else dist) m) m

/-- `Prefix2DistProcessor::summarize_latest` up to the final write. -/
def pfx2distSummarizeLatest (s : Pfx2distState)
    (inputs : List (RibMeta × Option Prefix2DistCollectorJson)) (ignore_error : Bool) :
    Except String Prefix2DistSummaryJson :=
  match foldArtifacts s.processor_meta pfx2distMergeStep ignore_error [] inputs with
  | .error msg => .error msg
  | .ok m =>
    .ok { rib_dump_urls := inputs.map (fun i => i.1.rib_dump_url),
          pfx2dist := m.map (fun kv =>
            { pfx := kv.1.1, collector_asn := kv.1.2, distance := kv.2 }) }

/-- The effect of one summarize call on the previously written summary
artifact: an error leaves the prior artifact in place, success overwrites it. -/
def summarizeStore {Out : Type} (result : Except String Out) (prev : Option Out) : Option Out :=
  match result with
  | .error _ => prev
  | .ok out => some out

/-- `true` exactly on `Except.error`. -/
def isErr {α : Type} : Except String α → Bool
  | .error _ => true
  | .ok _ => false

/-! ## General lemmas about the folds -/

theorem countL_eq_zero_of_not_mem {α : Type} [DecidableEq α] {a : α} {l : List α}
    (h : a ∉ l) : countL a l = 0 := by
  by_contra hc
  exact h ((countL_nonneg_iff_mem a l).mp hc)

theorem countL_map_inj {α β : Type} [DecidableEq α] [DecidableEq β] (f : α → β)
    (hf : Function.Injective f) (a : α) (l : List α) :
    countL (f a) (l.map f) = countL a l := by
  induction l with
  | nil => rfl
  | cons b l ih =>
    by_cases h : b = a
    · subst h
      simp [countL, ih]
    · have h2 : ¬ f b = f a := fun he => h (hf he)
      simp [countL, h, h2, ih]

theorem as2relFold_lookup (p : IpAddr) (L : List As2relKey)
    (m : List (As2relKey × (Nat × Finset IpAddr))) (k : As2relKey) :
    alLookup k (L.foldl (fun m k2 => as2relBump p k2 m) m) =
      if countL k L = 0 then alLookup k m
      else some (((alLookup k m).getD (0, ∅)).1 + countL k L,
                 insert p ((alLookup k m).getD (0, ∅)).2) := by
  induction L generalizing m with
  | nil => simp [countL]
  | cons a L ih =>
    rw [List.foldl_cons, ih]
    by_cases hak : a = k
    · subst hak
      have hb : alLookup a (as2relBump p a m) =
          some (((alLookup a m).getD (0, ∅)).1 + 1,
                insert p ((alLookup a m).getD (0, ∅)).2) := by
        simp [as2relBump, alLookup_alUpsert]
      have hc : countL a (a :: L) = 1 + countL a L := by simp [countL]
      rw [hc, hb]
      by_cases hL : countL a L = 0
      · simp [hL]
      · simp [hL]
        omega
    · have hb : alLookup k (as2relBump p a m) = alLookup k m := by
        have hka : ¬ k = a := fun h => hak h.symm
        simp [as2relBump, alLookup_alUpsert, hka]
      have hc : countL k (a :: L) = countL k L := by simp [countL, hak]
      rw [hc, hb]

/-- The code-0 key list of one as2rel message: every consecutive pair of the
usable path, as received, with relationship code 0. -/
def as2relCode0Keys (path : List Nat) : List As2relKey :=
  (adjPairs path).map (fun ab => (ab.1, ab.2, 0))

/-- The code-1 key list of one as2rel message: the adjacent pairs of the
origin-first (reversed) path with index below the first Tier-1 index `t`, each
keyed with the hop nearer the receiver first, with relationship code 1; empty
unless `t < len - 1`. -/
def as2relCode1Keys (path : List Nat) : List As2relKey :=
  let rev := path.reverse
  let t := rev.findIdx (fun x => TIER1.contains x)
  if path.any (fun x => TIER1.contains x) then
    if t < rev.length - 1 then
      ((adjPairs rev).take t).map (fun ab => (ab.2, ab.1, 1))
    else []
  else []

theorem as2relProcessEntry_eq (e : BgpElem) (s : As2relState) (path : List Nat)
    (hq : as2relQualifies e = some path) :
    (as2relProcessEntry e s).as2rel_map =
      (as2relCode1Keys path).foldl (fun m k => as2relBump e.peer_ip k m)
        ((as2relCode0Keys path).foldl (fun m k => as2relBump e.peer_ip k m) s.as2rel_map) := by
  unfold as2relProcessEntry
  rw [hq]
  simp only [as2relCode0Keys, as2relCode1Keys, List.foldl_map]
  by_cases ht : path.any (fun x => TIER1.contains x)
  · simp only [ht, if_true]
    by_cases hlt : path.reverse.findIdx (fun x => TIER1.contains x) < path.reverse.length - 1
    · simp only [hlt, if_true, List.foldl_map]
    · simp only [hlt, if_false, List.foldl_nil]
  · simp only [ht, if_false, Bool.false_eq_true, List.foldl_nil]

theorem as2relCode1Keys_rel (path : List Nat) (k : As2relKey) (hk : k ∈ as2relCode1Keys path) :
    k.2.2 = 1 := by
  simp only [as2relCode1Keys] at hk
  split at hk
  · split at hk
    · simp only [List.mem_map] at hk
      obtain ⟨ab, _, hab⟩ := hk
      rw [← hab]
    · simp at hk
  · simp at hk

theorem as2relCode0Keys_rel (path : List Nat) (k : As2relKey) (hk : k ∈ as2relCode0Keys path) :
    k.2.2 = 0 := by
  unfold as2relCode0Keys at hk
  simp only [List.mem_map] at hk
  obtain ⟨ab, _, hab⟩ := hk
  rw [← hab]

theorem countL_code0 (path : List Nat) (a b : Nat) :
    countL ((a, b, 0) : As2relKey) (as2relCode0Keys path) = countL (a, b) (adjPairs path) := by
  unfold as2relCode0Keys
  have hinj : Function.Injective (fun ab : Nat × Nat => ((ab.1, ab.2, 0) : As2relKey)) := by
    intro x y hxy
    simp only [Prod.mk.injEq] at hxy
    exact Prod.ext hxy.1 hxy.2.1
  exact countL_map_inj _ hinj (a, b) (adjPairs path)

theorem as2relProcess_lookup_code0 (e : BgpElem) (s : As2relState) (path : List Nat)
    (hq : as2relQualifies e = some path) (a b : Nat) :
    alLookup ((a, b, 0) : As2relKey) (as2relProcessEntry e s).as2rel_map =
      if countL (a, b) (adjPairs path) = 0 then alLookup (a, b, 0) s.as2rel_map
      else some (((alLookup ((a, b, 0) : As2relKey) s.as2rel_map).getD (0, ∅)).1
                   + countL (a, b) (adjPairs path),
                 insert e.peer_ip ((alLookup ((a, b, 0) : As2relKey) s.as2rel_map).getD (0, ∅)).2) := by
  rw [as2relProcessEntry_eq e s path hq]
  have h1 : countL ((a, b, 0) : As2relKey) (as2relCode1Keys path) = 0 := by
    apply countL_eq_zero_of_not_mem
    intro hmem
    have := as2relCode1Keys_rel path _ hmem
    simp at this
  rw [as2relFold_lookup, h1, if_pos rfl, as2relFold_lookup, countL_code0]

theorem as2relProcess_lookup_code1 (e : BgpElem) (s : As2relState) (path : List Nat)
    (hq : as2relQualifies e = some path) (a b : Nat) :
    alLookup ((a, b, 1) : As2relKey) (as2relProcessEntry e s).as2rel_map =
      if countL ((a, b, 1) : As2relKey) (as2relCode1Keys path) = 0
      then alLookup (a, b, 1) s.as2rel_map
      else some (((alLookup ((a, b, 1) : As2relKey) s.as2rel_map).getD (0, ∅)).1
                   + countL ((a, b, 1) : As2relKey) (as2relCode1Keys path),
                 insert e.peer_ip ((alLookup ((a, b, 1) : As2relKey) s.as2rel_map).getD (0, ∅)).2) := by
  rw [as2relProcessEntry_eq e s path hq]
  have h0 : countL ((a, b, 1) : As2relKey) (as2relCode0Keys path) = 0 := by
    apply countL_eq_zero_of_not_mem
    intro hmem
    have := as2relCode0Keys_rel path _ hmem
    simp at this
  have hpres : alLookup ((a, b, 1) : As2relKey)
      ((as2relCode0Keys path).foldl (fun m k => as2relBump e.peer_ip k m) s.as2rel_map)
      = alLookup ((a, b, 1) : As2relKey) s.as2rel_map := by
    rw [as2relFold_lookup, h0, if_pos rfl]
  rw [as2relFold_lookup, hpres]

theorem as2relProcess_preserves_nonzero_rel (e : BgpElem) (s : As2relState) (path : List Nat)
    (hq : as2relQualifies e = some path)
    (hnt : path.any (fun x => TIER1.contains x) = false) (k : As2relKey) (hk : k.2.2 ≠ 0) :
    alLookup k (as2relProcessEntry e s).as2rel_map = alLookup k s.as2rel_map := by
  rw [as2relProcessEntry_eq e s path hq]
  have h1 : as2relCode1Keys path = [] := by
    unfold as2relCode1Keys
    rw [hnt]
    simp
  have h0 : countL k (as2relCode0Keys path) = 0 := by
    apply countL_eq_zero_of_not_mem
    intro hmem
    exact hk (as2relCode0Keys_rel path _ hmem)
  rw [h1, List.foldl_nil, as2relFold_lookup, h0, if_pos rfl]

/-! ## Lemmas about the summarize folds -/

theorem foldArtifacts_ignore {Doc M : Type} (pm : ProcessorMeta) (step : M → Doc → M)
    (acc : M) (inputs : List (RibMeta × Option Doc)) :
    foldArtifacts pm step true acc inputs =
      .ok ((inputs.filterMap (fun i => i.2)).foldl step acc) := by
  induction inputs generalizing acc with
  | nil => rfl
  | cons i rest ih =>
    obtain ⟨meta, d⟩ := i
    cases d with
    | none => simpa [foldArtifacts] using ih acc
    | some doc => simpa [foldArtifacts] using ih (step acc doc)

theorem foldArtifacts_error {Doc M : Type} (pm : ProcessorMeta) (step : M → Doc → M)
    (acc : M) (inputs : List (RibMeta × Option Doc))
    (h : ∃ i ∈ inputs, i.2 = none) :
    isErr (foldArtifacts pm step false acc inputs) = true := by
  induction inputs generalizing acc with
  | nil => simp at h
  | cons i rest ih =>
    obtain ⟨meta, d⟩ := i
    cases d with
    | none => simp [foldArtifacts, isErr]
    | some doc =>
      obtain ⟨j, hj, hje⟩ := h
      rcases List.mem_cons.mp hj with hj1 | hj2
      · rw [hj1] at hje
        simp at hje
      · simpa [foldArtifacts] using ih (step acc doc) ⟨j, hj2, hje⟩

theorem filterMap_filter_isSome {Doc : Type} (inputs : List (RibMeta × Option Doc)) :
    ((inputs.filter (fun i => i.2.isSome)).filterMap (fun i => i.2)) =
      inputs.filterMap (fun i => i.2) := by
  induction inputs with
  | nil => rfl
  | cons i rest ih =>
    obtain ⟨meta, d⟩ := i
    cases d with
    | none => simpa [List.filter_cons] using ih
    | some doc => simpa [List.filter_cons] using ih

theorem pfx2asEntFold_lookup (ents : List Prefix2AsCount)
    (m : List ((IpNet × Nat) × Nat)) (k : IpNet × Nat) :
    (alLookup k (ents.foldl (fun m ent => alUpsert (ent.pfx, ent.asn) 0
        (fun c => c + ent.count) m) m)).getD 0 =
      (alLookup k m).getD 0 +
        ((ents.filter (fun ent => decide ((ent.pfx, ent.asn) = k))).map
          (fun ent => ent.count)).sum := by
  induction ents generalizing m with
  | nil => simp
  | cons ent rest ih =>
    rw [List.foldl_cons, ih]
    by_cases hk : (ent.pfx, ent.asn) = k
    · have hl : (alLookup k (alUpsert (ent.pfx, ent.asn) 0 (fun c => c + ent.count) m)).getD 0
          = (alLookup k m).getD 0 + ent.count := by
        rw [hk, alLookup_alUpsert, if_pos rfl]
        rfl
      rw [hl]
      simp [List.filter_cons, hk]
      omega
    · have hl : alLookup k (alUpsert (ent.pfx, ent.asn) 0 (fun c => c + ent.count) m)
          = alLookup k m := by
        have hne : ¬ k = (ent.pfx, ent.asn) := fun h => hk h.symm
        rw [alLookup_alUpsert, if_neg hne]
      rw [hl]
      simp [List.filter_cons, hk]

/-- The total count recorded for key `k` inside one pfx2as artifact. -/
def pfx2asDocCount (d : Prefix2AsCollectorJson) (k : IpNet × Nat) : Nat :=
  ((d.pfx2as.filter (fun ent => decide ((ent.pfx, ent.asn) = k))).map
    (fun ent => ent.count)).sum

theorem pfx2asMergeFold_lookup (docs : List Prefix2AsCollectorJson)
    (m : List ((IpNet × Nat) × Nat)) (k : IpNet × Nat) :
    (alLookup k (docs.foldl pfx2asMergeStep m)).getD 0 =
      (alLookup k m).getD 0 + (docs.map (fun d => pfx2asDocCount d k)).sum := by
  induction docs generalizing m with
  | nil => simp
  | cons d rest ih =>
    rw [List.foldl_cons, ih]
    have hd : (alLookup k (pfx2asMergeStep m d)).getD 0
        = (alLookup k m).getD 0 + pfx2asDocCount d k := pfx2asEntFold_lookup d.pfx2as m k
    rw [hd]
    simp
    omega

/-- The total paths count recorded for key `k` inside one as2rel artifact. -/
def as2relDocPaths (d : As2relCollectorJson) (k : As2relKey) : Nat :=
  ((d.as2rel.filter (fun ent => decide ((ent.asn1, ent.asn2, ent.rel) = k))).map
    (fun ent => ent.paths_count)).sum

/-- The total peers count recorded for key `k` inside one as2rel artifact. -/
def as2relDocPeers (d : As2relCollectorJson) (k : As2relKey) : Nat :=
  ((d.as2rel.filter (fun ent => decide ((ent.asn1, ent.asn2, ent.rel) = k))).map
    (fun ent => ent.peers_count)).sum

theorem as2relEntFold_lookup (ents : List As2relEntry)
    (m : List (As2relKey × (Nat × Nat))) (k : As2relKey) :
    (alLookup k (ents.foldl (fun m ent => alUpsert (ent.asn1, ent.asn2, ent.rel) (0, 0)
        (fun cv => (cv.1 + ent.paths_count, cv.2 + ent.peers_count)) m) m)).getD (0, 0) =
      (((alLookup k m).getD (0, 0)).1 +
          ((ents.filter (fun ent => decide ((ent.asn1, ent.asn2, ent.rel) = k))).map
            (fun ent => ent.paths_count)).sum,
       ((alLookup k m).getD (0, 0)).2 +
          ((ents.filter (fun ent => decide ((ent.asn1, ent.asn2, ent.rel) = k))).map
            (fun ent => ent.peers_count)).sum) := by
  induction ents generalizing m with
  | nil => simp
  | cons ent rest ih =>
    rw [List.foldl_cons, ih]
    by_cases hk : (ent.asn1, ent.asn2, ent.rel) = k
    · have hl : (alLookup k (alUpsert (ent.asn1, ent.asn2, ent.rel) (0, 0)
          (fun cv => (cv.1 + ent.paths_count, cv.2 + ent.peers_count)) m)).getD (0, 0)
          = (((alLookup k m).getD (0, 0)).1 + ent.paths_count,
             ((alLookup k m).getD (0, 0)).2 + ent.peers_count) := by
        rw [hk, alLookup_alUpsert, if_pos rfl]
        rfl
      rw [hl]
      simp [List.filter_cons, hk]
      constructor
      · omega
      · omega
    · have hl : alLookup k (alUpsert (ent.asn1, ent.asn2, ent.rel) (0, 0)
          (fun cv => (cv.1 + ent.paths_count, cv.2 + ent.peers_count)) m)
          = alLookup k m := by
        have hne : ¬ k = (ent.asn1, ent.asn2, ent.rel) := fun h => hk h.symm
        rw [alLookup_alUpsert, if_neg hne]
      rw [hl]
      simp [List.filter_cons, hk]

theorem as2relMergeFold_lookup (docs : List As2relCollectorJson)
    (m : List (As2relKey × (Nat × Nat))) (k : As2relKey) :
    (alLookup k (docs.foldl as2relMergeStep m)).getD (0, 0) =
      (((alLookup k m).getD (0, 0)).1 + (docs.map (fun d => as2relDocPaths d k)).sum,
       ((alLookup k m).getD (0, 0)).2 + (docs.map (fun d => as2relDocPeers d k)).sum) := by
  induction docs generalizing m with
  | nil => simp
  | cons d rest ih =>
    rw [List.foldl_cons, ih]
    have hd : (alLookup k (as2relMergeStep m d)).getD (0, 0)
        = (((alLookup k m).getD (0, 0)).1 + as2relDocPaths d k,
           ((alLookup k m).getD (0, 0)).2 + as2relDocPeers d k) :=
      as2relEntFold_lookup d.as2rel m k
    rw [hd]
    simp
    constructor
    · omega
    · omega

/-! ## Lemmas about the Coordinator run -/

/-- The archival document pfx2as serializes for snapshot `m` from state `s`. -/
def pfx2asArchDoc (m : RibMeta) (s : Pfx2asState) : Prefix2AsCollectorJson :=
  { project := m.project, collector := m.collector, rib_dump_url := m.rib_dump_url,
    pfx2as := pfx2asGetCountVec s }

theorem pfx2asToResultString_some (s : Pfx2asState) (m : RibMeta)
    (hm : s.rib_meta = some m) :
    pfx2asToResultString s = .ok (some (pfx2asArchDoc m s)) := by
  unfold pfx2asToResultString pfx2asArchDoc
  rw [hm]

theorem pfx2asOutputPaths_some (s : Pfx2asState) (m : RibMeta)
    (hm : s.rib_meta = some m) :
    pfx2asOutputPaths s = .ok (some [get_default_output_path m s.processor_meta,
                                     get_latest_output_path m s.processor_meta]) := by
  unfold pfx2asOutputPaths
  rw [hm]

theorem pfx2asOutput_writes (s : Pfx2asState) (m : RibMeta) (fs : Pfx2asFs)
    (hm : s.rib_meta = some m) :
    pfx2asOutput s fs = .ok
      (fsWritePfx2as (get_latest_output_path m s.processor_meta) (pfx2asArchDoc m s)
        (fsWritePfx2as (get_default_output_path m s.processor_meta) (pfx2asArchDoc m s) fs)) := by
  unfold pfx2asOutput
  rw [pfx2asOutputPaths_some s m hm, pfx2asToResultString_some s m hm]
  rfl

theorem mrtFold_single (msgs : List BgpElem) (p : Pfx2asState) (c : Nat) :
    msgs.foldl (fun (acc : List Pfx2asState × Nat) (msg : BgpElem) =>
        (acc.1.map (fun q => pfx2asProcessEntry msg q), acc.2 + acc.1.length)) ([p], c)
      = ([pfx2asRun msgs p], c + msgs.length) := by
  induction msgs generalizing p c with
  | nil => simp [pfx2asRun]
  | cons e l ih =>
    rw [List.foldl_cons]
    simp only [List.map_cons, List.map_nil, List.length_cons, List.length_nil]
    rw [ih]
    unfold pfx2asRun
    rw [List.foldl_cons]
    simp only [Prod.mk.injEq]
    refine ⟨trivial, by omega⟩

/-! ## Concrete example inputs shared by the claim instances -/

/-- A concrete snapshot timestamp. -/
def exTs : Timestamp := { year := 2024, month := 3, day := 5, epoch := 1709596800 }

/-- A concrete snapshot metadata record. -/
def exMeta1 : RibMeta :=
  { project := "route-views", collector := "route-views2",
    rib_dump_url := "http://archive.example/rib1.bz2", timestamp := exTs }

/-- A second concrete snapshot metadata record (next day's snapshot). -/
def exMeta2 : RibMeta :=
  { project := "route-views", collector := "route-views2",
    rib_dump_url := "http://archive.example/rib2.bz2",
    timestamp := { year := 2024, month := 3, day := 6, epoch := 1709683200 } }

/-- A qualifying ANNOUNCE element: network 198.51.100.0/24, path 64496 65001. -/
def exElemA : BgpElem :=
  { elem_type := .announce, peer_ip := 100, peer_asn := 64496,
    pfx := .v4 3325256704 24, as_path := some { flat := some [64496, 65001] } }

/-- A qualifying ANNOUNCE element whose path [64500, 64501] holds no Tier-1 AS. -/
def exElemB : BgpElem :=
  { elem_type := .announce, peer_ip := 100, peer_asn := 64500,
    pfx := .v4 167837696 24, as_path := some { flat := some [64500, 64501] } }

/-- The spec's AsRelationship example message: received-order path
[7018, 701, 6939, 65001], i.e. reversed-from-origin [65001, 6939, 701, 7018]. -/
def exElemC3 : BgpElem :=
  { elem_type := .announce, peer_ip := 100, peer_asn := 7018,
    pfx := .v4 167838208 24, as_path := some { flat := some [7018, 701, 6939, 65001] } }

/-! ## Helper lemmas for the peer-stats update and the summarize wrappers -/

theorem peerStatsProcess_lookup (e : BgpElem) (s : PeerStatsState) (ip : IpAddr) :
    alLookup ip (peerStatsProcessEntry e s).peer_info_map =
      if ip = e.peer_ip
      then some (peerStatsUpdateInfo e ((alLookup e.peer_ip s.peer_info_map).getD
          (PeerInfo.new_from_ip e.peer_ip e.peer_asn (s.rib_meta.map (fun r => r.collector)))))
      else alLookup ip s.peer_info_map := by
  simp only [peerStatsProcessEntry]
  rw [alLookup_alUpsert]

theorem peerStatsUpdateInfo_withdraw (e : BgpElem) (info : PeerInfo)
    (hw : e.elem_type = .withdraw) : peerStatsUpdateInfo e info = info := by
  unfold peerStatsUpdateInfo
  rw [hw]
  simp

theorem peerStatsUpdateInfo_v4 (e : BgpElem) (info : PeerInfo) (a l : Nat)
    (ha : e.elem_type = .announce) (hp : e.pfx = .v4 a l) :
    (peerStatsUpdateInfo e info).ipv4_default = (if l = 0 then true else info.ipv4_default)
    ∧ (a, l) ∈ (peerStatsUpdateInfo e info).ipv4_pfxs := by
  unfold peerStatsUpdateInfo
  rw [ha, hp]
  cases hnh : (e.as_path.bind fun p => p.to_u32_vec_opt true).bind List.head? <;> simp

theorem filterMap_all_none {Doc : Type} (inputs : List (RibMeta × Option Doc))
    (h : ∀ i ∈ inputs, i.2 = none) : inputs.filterMap (fun i => i.2) = [] := by
  induction inputs with
  | nil => rfl
  | cons i rest ih =>
    have hi := h i (List.mem_cons_self i rest)
    simp only [List.filterMap_cons, hi]
    exact ih (fun j hj => h j (List.mem_cons_of_mem i hj))

theorem pfx2asSummarize_ignore (s : Pfx2asState)
    (inputs : List (RibMeta × Option Prefix2AsCollectorJson)) :
    pfx2asSummarizeLatest s inputs true =
      .ok { rib_dump_urls := inputs.map (fun i => i.1.rib_dump_url),
            pfx2as := (((inputs.filterMap (fun i => i.2)).foldl pfx2asMergeStep []).map
              (fun kv => { pfx := kv.1.1, asn := kv.1.2, count := kv.2 })) } := by
  unfold pfx2asSummarizeLatest
  rw [foldArtifacts_ignore]

theorem as2relSummarize_ignore (s : As2relState)
    (inputs : List (RibMeta × Option As2relCollectorJson)) :
    as2relSummarizeLatest s inputs true =
      .ok { rib_dump_urls := inputs.map (fun i => i.1.rib_dump_url),
            as2rel := (((inputs.filterMap (fun i => i.2)).foldl as2relMergeStep []).map
              (fun kv => { asn1 := kv.1.1, asn2 := kv.1.2.1, paths_count := kv.2.1,
                           peers_count := kv.2.2, rel := kv.1.2.2 })) } := by
  unfold as2relSummarizeLatest
  rw [foldArtifacts_ignore]

theorem peerStatsSummarize_ignore (s : PeerStatsState)
    (inputs : List (RibMeta × Option PeerInfoCollectorJson)) :
    peerStatsSummarizeLatest s inputs true =
      .ok { rib_dump_urls := inputs.map (fun i => i.1.rib_dump_url),
            peers := peerStatsEntries s } := by
  unfold peerStatsSummarizeLatest
  rw [foldArtifacts_ignore]

theorem pfx2distSummarize_ignore (s : Pfx2distState)
    (inputs : List (RibMeta × Option Prefix2DistCollectorJson)) :
    pfx2distSummarizeLatest s inputs true =
      .ok { rib_dump_urls := inputs.map (fun i => i.1.rib_dump_url),
            pfx2dist := (((inputs.filterMap (fun i => i.2)).foldl pfx2distMergeStep []).map
              (fun kv => { pfx := kv.1.1, collector_asn := kv.1.2, distance := kv.2 })) } := by
  unfold pfx2distSummarizeLatest
  rw [foldArtifacts_ignore]

theorem pfx2asSummarize_err (s : Pfx2asState)
    (inputs : List (RibMeta × Option Prefix2AsCollectorJson))
    (h : ∃ i ∈ inputs, i.2 = none) :
    isErr (pfx2asSummarizeLatest s inputs false) = true := by
  unfold pfx2asSummarizeLatest
  have he := foldArtifacts_error s.processor_meta pfx2asMergeStep [] inputs h
  cases hf : foldArtifacts s.processor_meta pfx2asMergeStep false [] inputs with
  | error msg => rfl
  | ok m =>
    rw [hf] at he
    simp [isErr] at he

theorem as2relSummarize_err (s : As2relState)
    (inputs : List (RibMeta × Option As2relCollectorJson))
    (h : ∃ i ∈ inputs, i.2 = none) :
    isErr (as2relSummarizeLatest s inputs false) = true := by
  unfold as2relSummarizeLatest
  have he := foldArtifacts_error s.processor_meta as2relMergeStep [] inputs h
  cases hf : foldArtifacts s.processor_meta as2relMergeStep false [] inputs with
  | error msg => rfl
  | ok m =>
    rw [hf] at he
    simp [isErr] at he

theorem peerStatsSummarize_err (s : PeerStatsState)
    (inputs : List (RibMeta × Option PeerInfoCollectorJson))
    (h : ∃ i ∈ inputs, i.2 = none) :
    isErr (peerStatsSummarizeLatest s inputs false) = true := by
  unfold peerStatsSummarizeLatest
  have he := foldArtifacts_error s.processor_meta peerStatsMergeStep [] inputs h
  cases hf : foldArtifacts s.processor_meta peerStatsMergeStep false [] inputs with
  | error msg => rfl
  | ok m =>
    rw [hf] at he
    simp [isErr] at he

theorem pfx2distSummarize_err (s : Pfx2distState)
    (inputs : List (RibMeta × Option Prefix2DistCollectorJson))
    (h : ∃ i ∈ inputs, i.2 = none) :
    isErr (pfx2distSummarizeLatest s inputs false) = true := by
  unfold pfx2distSummarizeLatest
  have he := foldArtifacts_error s.processor_meta pfx2distMergeStep [] inputs h
  cases hf : foldArtifacts s.processor_meta pfx2distMergeStep false [] inputs with
  | error msg => rfl
  | ok m =>
    rw [hf] at he
    simp [isErr] at he

theorem summarizeStore_err {Out : Type} (r : Except String Out) (prev : Option Out)
    (h : isErr r = true) : summarizeStore r prev = prev := by
  cases r with
  | error msg => rfl
  | ok out => simp [isErr] at h

/-! ## Further concrete inputs for claim instances -/

/-- The example peer IP 192.0.2.1 of the spec's PeerStats example (its `u32`
bits). -/
def exPeerIp : IpAddr := 3221225985

/-- ANNOUNCE of the IPv4 default route 0.0.0.0/0 from peer 192.0.2.1/AS64500. -/
def exElemDef : BgpElem :=
  { elem_type := .announce, peer_ip := exPeerIp, peer_asn := 64500,
    pfx := .v4 0 0, as_path := some { flat := some [64500] } }

/-- ANNOUNCE of 198.51.100.0/24 from the same peer 192.0.2.1/AS64500. -/
def exElemPfx : BgpElem :=
  { elem_type := .announce, peer_ip := exPeerIp, peer_asn := 64500,
    pfx := .v4 3325256704 24, as_path := some { flat := some [64500] } }

/-- A WITHDRAW element from a peer not seen before. -/
def exElemW : BgpElem :=
  { elem_type := .withdraw, peer_ip := 200, peer_asn := 64499,
    pfx := .v4 167837696 24, as_path := none }

/-- A peer record as read back from a per-snapshot peer-stats artifact. -/
def exPeerEntry : PeerInfoEntry :=
  { ip := 42, collector := some "route-views2", asn := 65010, num_v4_pfxs := 3,
    num_v6_pfxs := 1, num_connected_asns := 2, has_v4_default := false,
    has_v6_default := false }

/-- A readable per-snapshot peer-stats artifact holding one peer record. -/
def exPeerDoc : PeerInfoCollectorJson :=
  { project := "route-views", collector := "route-views2",
    rib_dump_url := "http://archive.example/rib1.bz2", peers := [exPeerEntry] }

/-- A pfx2as artifact whose 198.51.100.0-like key carries count 2. -/
def exPfxDoc1 : Prefix2AsCollectorJson :=
  { project := "route-views", collector := "route-views2",
    rib_dump_url := "http://archive.example/rib1.bz2",
    pfx2as := [{ pfx := .v4 1 24, asn := 65001, count := 2 }] }

/-- A second pfx2as artifact whose same key carries count 3. -/
def exPfxDoc2 : Prefix2AsCollectorJson :=
  { project := "route-views", collector := "route-views2",
    rib_dump_url := "http://archive.example/rib2.bz2",
    pfx2as := [{ pfx := .v4 1 24, asn := 65001, count := 3 }] }

/-- An as2rel artifact with one entry under key (1, 2, 0). -/
def exRelDoc1 : As2relCollectorJson :=
  { project := "route-views", collector := "route-views2",
    rib_dump_url := "http://archive.example/rib1.bz2",
    as2rel := [{ asn1 := 1, asn2 := 2, paths_count := 5, peers_count := 2, rel := 0 }] }

/-- A second as2rel artifact with another entry under the same key (1, 2, 0). -/
def exRelDoc2 : As2relCollectorJson :=
  { project := "route-views", collector := "route-views2",
    rib_dump_url := "http://archive.example/rib2.bz2",
    as2rel := [{ asn1 := 1, asn2 := 2, paths_count := 7, peers_count := 4, rel := 0 }] }

/-- A previously written pfx2as summary artifact. -/
def exPfxPrev : Prefix2AsSummaryJson :=
  { rib_dump_urls := ["http://archive.example/rib0.bz2"],
    pfx2as := [{ pfx := .v4 9 24, asn := 65009, count := 9 }] }

/-- The pfx2as state after one run over `[exElemA]` for snapshot `exMeta1`. -/
def c1State1 : Pfx2asState :=
  pfx2asRun [exElemA] (pfx2asReset exMeta1 (pfx2asNew "results"))

/-- The stale document sitting at the pfx2as "latest" target before a run. -/
def c4OldDoc : Prefix2AsCollectorJson :=
  { project := "stale", collector := "stale", rib_dump_url := "stale", pfx2as := [] }

/-- The pfx2as "latest" target path for snapshot `exMeta1`. -/
def c4Latest : String := get_latest_output_path exMeta1 (pfx2asNew "results").processor_meta

/-- A store in which the pfx2as "latest" target already exists before the run. -/
def c4Fs : Pfx2asFs := fun q => if q = c4Latest then some c4OldDoc else none

/-! ## The claims -/

/-- C1 (counterexample): the claim says `reset_processor` discards all prior
aggregation state, so a second run over the same elements after a reset yields
structurally identical result documents.  On the code, reset keeps the pfx2as
map: after run-reset-run over the single element `exElemA`, the stored count is
2, while the first run's document carried 1 — the documents differ. -/
theorem reset_discards_state_counterexample :
    (pfx2asReset exMeta2 c1State1).pfx2as_map = c1State1.pfx2as_map
    ∧ c1State1.pfx2as_map ≠ []
    ∧ alLookup (IpNet.v4 3325256704 24, 65001) c1State1.pfx2as_map = some 1
    ∧ alLookup (IpNet.v4 3325256704 24, 65001)
        (pfx2asRun [exElemA] (pfx2asReset exMeta2 c1State1)).pfx2as_map = some 2 := by
  exact ⟨rfl, by decide, by decide, by decide⟩

/-- C1 (amended): for every processor variant, `reset_processor` only stores
the new snapshot metadata and leaves the aggregation state untouched; hence a
second pipeline pass over the same element sequence after a reset accumulates
on top of the first (counts double), instead of reproducing the first run's
documents. -/
theorem reset_only_stores_meta (m m1 m2 : RibMeta) (s1 : Pfx2asState)
    (s2 : PeerStatsState) (s3 : As2relState) (s4 : Pfx2distState) (dir : String)
    (elems : List BgpElem) (k : IpNet × Nat) :
    ((pfx2asReset m s1).pfx2as_map = s1.pfx2as_map ∧ (pfx2asReset m s1).rib_meta = some m)
    ∧ ((peerStatsReset m s2).peer_info_map = s2.peer_info_map
        ∧ (peerStatsReset m s2).rib_meta = some m)
    ∧ ((as2relReset m s3).as2rel_map = s3.as2rel_map ∧ (as2relReset m s3).rib_meta = some m)
    ∧ ((pfx2distReset m s4).pfx2dist_map = s4.pfx2dist_map
        ∧ (pfx2distReset m s4).rib_meta = some m)
    ∧ (alLookup k (pfx2asRun elems (pfx2asReset m2
          (pfx2asRun elems (pfx2asReset m1 (pfx2asNew dir))))).pfx2as_map).getD 0
        = 2 * pfx2asCodeCount elems k := by
  refine ⟨⟨rfl, rfl⟩, ⟨rfl, rfl⟩, ⟨rfl, rfl⟩, ⟨rfl, rfl⟩, ?_⟩
  have hmid := pfx2asRun_lookup elems (pfx2asReset m1 (pfx2asNew dir)) k
  have hbase : alLookup k (pfx2asReset m1 (pfx2asNew dir)).pfx2as_map = none := rfl
  rw [hbase] at hmid
  have hfin := pfx2asRun_lookup elems
    (pfx2asReset m2 (pfx2asRun elems (pfx2asReset m1 (pfx2asNew dir)))) k
  have hmap : (pfx2asReset m2 (pfx2asRun elems
      (pfx2asReset m1 (pfx2asNew dir)))).pfx2as_map
      = (pfx2asRun elems (pfx2asReset m1 (pfx2asNew dir))).pfx2as_map := rfl
  rw [hmap, hmid] at hfin
  rw [hfin]
  by_cases h0 : pfx2asCodeCount elems k = 0
  · simp [h0]
  · simp [h0]
    omega

/-- C2 (code_bug): `PeerStatsProcessor::summarize_latest` computes the
last-snapshot-wins merge of the readable artifacts into a local map and then
never reads it: the written summary's `peers` come from the processor's own
in-memory map.  For a fresh processor and one readable artifact holding the
record `exPeerEntry`, the written summary holds no peers at all, while the
discarded merged map holds exactly that record. -/
theorem peer_stats_summarize_writes_self_state :
    peerStatsSummarizeLatest (peerStatsNew "results") [(exMeta1, some exPeerDoc)] true
      = .ok { rib_dump_urls := ["http://archive.example/rib1.bz2"], peers := [] }
    ∧ foldArtifacts (peerStatsNew "results").processor_meta peerStatsMergeStep true []
        [(exMeta1, some exPeerDoc)] = .ok [(42, exPeerEntry)] := by
  exact ⟨rfl, rfl⟩

/-- C3 (counterexample): the claim says the spec's example message — received
path [7018, 701, 6939, 65001], reversed-from-origin [65001, 6939, 701, 7018],
first Tier-1 index 1 — emits exactly zero code-1 entries.  The code's
`for i in 0..first_tier1` loop emits the pair ending at the Tier-1 hop:
processing that message from an empty state stores a code-1 entry keyed
(6939, 65001, 1) with count 1. -/
theorem as2rel_code1_example_counterexample :
    alLookup ((6939, 65001, 1) : As2relKey)
        (as2relProcessEntry exElemC3 (as2relNew "results")).as2rel_map
      = some (1, {100}) := by
  decide

/-- C3 (amended): for a qualifying message whose deduplicated path holds a
Tier-1 AS, with `t` the first Tier-1 index of the origin-first path, code-1
evidence keyed `(hop i+1, hop i, 1)` is recorded exactly for the adjacent
pairs `(i, i+1)` with `i < t` — so the pair ending at the Tier-1 hop itself is
included — and only when `t < len - 1` (`as2relCode1Keys`); in particular the
spec's example message emits exactly one code-1 entry, keyed (6939, 65001, 1). -/
theorem as2rel_code1_range (e : BgpElem) (s : As2relState) (path : List Nat)
    (hq : as2relQualifies e = some path) :
    (∀ a b : Nat,
      alLookup ((a, b, 1) : As2relKey) (as2relProcessEntry e s).as2rel_map =
        if countL ((a, b, 1) : As2relKey) (as2relCode1Keys path) = 0
        then alLookup ((a, b, 1) : As2relKey) s.as2rel_map
        else some (((alLookup ((a, b, 1) : As2relKey) s.as2rel_map).getD (0, ∅)).1
                     + countL ((a, b, 1) : As2relKey) (as2relCode1Keys path),
                   insert e.peer_ip
                     ((alLookup ((a, b, 1) : As2relKey) s.as2rel_map).getD (0, ∅)).2))
    ∧ alLookup ((6939, 65001, 1) : As2relKey)
        (as2relProcessEntry exElemC3 (as2relNew "results")).as2rel_map = some (1, {100})
    ∧ ((as2relProcessEntry exElemC3 (as2relNew "results")).as2rel_map.filter
        (fun kv => decide (kv.1.2.2 = 1))).length = 1 := by
  refine ⟨fun a b => as2relProcess_lookup_code1 e s path hq a b, by decide, by decide⟩

/-- C3 (witness): the amended characterization applied to the spec's example
message: the path qualifies, and the code-1 key (6939, 65001, 1) is bumped
from absent to count 1 with observer set 100. -/
theorem as2rel_code1_range_witness :
    as2relQualifies exElemC3 = some [7018, 701, 6939, 65001]
    ∧ alLookup ((6939, 65001, 1) : As2relKey)
        (as2relProcessEntry exElemC3 (as2relNew "results")).as2rel_map = some (1, {100}) := by
  refine ⟨by decide, ?_⟩
  have h := (as2rel_code1_range exElemC3 (as2relNew "results") [7018, 701, 6939, 65001]
    (by decide)).1 6939 65001
  rw [h]
  decide

/-- C4 (counterexample): the claim says that when a processor's "latest"
target already exists before reset, the Coordinator never calls
`process_entry` on it and its output stays byte-identical.  Running
`process_mrt_file` with one pfx2as processor over one element against a store
where the latest target already holds `c4OldDoc`: `process_entry` is invoked
once, and the latest target afterward holds the freshly written document, not
the old one. -/
theorem coordinator_no_skip_counterexample :
    (processMrtFile [pfx2asReset exMeta1 (pfx2asNew "results")] [exElemA] c4Fs).map
        (fun r => (r.entry_calls, r.fs c4Latest))
      = .ok (1, some (pfx2asArchDoc exMeta1
          (pfx2asRun [exElemA] (pfx2asReset exMeta1 (pfx2asNew "results")))))
    ∧ c4Fs c4Latest = some c4OldDoc
    ∧ pfx2asArchDoc exMeta1 (pfx2asRun [exElemA] (pfx2asReset exMeta1 (pfx2asNew "results")))
        ≠ c4OldDoc := by
  refine ⟨by rfl, by decide, by decide⟩

/-- C4 (amended): `process_mrt_file` has no skip check at all: with a
registered processor whose snapshot metadata is set, every element of the run
is fed to `process_entry` (once per element) regardless of what the store
already holds, the processor's final state is the full fold over the element
sequence, and `output` overwrites the "latest" target with the newly
serialized document. -/
theorem coordinator_processes_all_regardless (p : Pfx2asState) (m : RibMeta)
    (msgs : List BgpElem) (fs : Pfx2asFs) (hm : p.rib_meta = some m) :
    (processMrtFile [p] msgs fs).map (fun r =>
        (r.procs, r.entry_calls, r.fs (get_latest_output_path m p.processor_meta)))
      = .ok ([pfx2asRun msgs p], msgs.length,
             some (pfx2asArchDoc m (pfx2asRun msgs p))) := by
  have hmeta := pfx2asRun_meta msgs p
  have hm2 : (pfx2asRun msgs p).rib_meta = some m := hmeta.1.trans hm
  have hpm : (pfx2asRun msgs p).processor_meta = p.processor_meta := hmeta.2
  have hout := pfx2asOutput_writes (pfx2asRun msgs p) m fs hm2
  have hsingle : outputAll [pfx2asRun msgs p] fs = .ok
      (fsWritePfx2as (get_latest_output_path m (pfx2asRun msgs p).processor_meta)
        (pfx2asArchDoc m (pfx2asRun msgs p))
        (fsWritePfx2as (get_default_output_path m (pfx2asRun msgs p).processor_meta)
          (pfx2asArchDoc m (pfx2asRun msgs p)) fs)) := by
    unfold outputAll
    rw [hout]
    rfl
  unfold processMrtFile
  rw [if_neg (by simp)]
  simp only []
  rw [mrtFold_single]
  simp only []
  rw [hsingle]
  simp only [Except.map]
  rw [hpm]
  simp [fsWritePfx2as]

/-- C4 (witness): the amended theorem applied to the concrete run of the
counterexample: the processor's metadata is set, and the run feeds the single
element to the processor and overwrites the latest target. -/
theorem coordinator_processes_all_regardless_witness :
    (pfx2asReset exMeta1 (pfx2asNew "results")).rib_meta = some exMeta1
    ∧ (processMrtFile [pfx2asReset exMeta1 (pfx2asNew "results")] [exElemA] c4Fs).map
        (fun r => (r.procs, r.entry_calls,
          r.fs (get_latest_output_path exMeta1
            (pfx2asReset exMeta1 (pfx2asNew "results")).processor_meta)))
      = .ok ([pfx2asRun [exElemA] (pfx2asReset exMeta1 (pfx2asNew "results"))], 1,
             some (pfx2asArchDoc exMeta1
               (pfx2asRun [exElemA] (pfx2asReset exMeta1 (pfx2asNew "results"))))) := by
  exact ⟨rfl, coordinator_processes_all_regardless
    (pfx2asReset exMeta1 (pfx2asNew "results")) exMeta1 [exElemA] c4Fs rfl⟩

/-- C5 (confirmed): for every element sequence, the pfx2as count stored under
key (P, A) — starting from a fresh processor — equals the number of ANNOUNCE
elements whose destination network is P with nonzero mask length and whose
usable path's last AS is A; no key is stored at all when that number is zero
(so WITHDRAWs, default routes and unusable paths contribute nothing). -/
theorem pfx2as_count_correct (dir : String) (elems : List BgpElem) (P : IpNet) (A : Nat) :
    (alLookup (P, A) (pfx2asRun elems (pfx2asNew dir)).pfx2as_map).getD 0
        = pfx2asSpecCount elems P A
    ∧ (alLookup (P, A) (pfx2asRun elems (pfx2asNew dir)).pfx2as_map = none
        ↔ pfx2asSpecCount elems P A = 0) := by
  have h := pfx2asRun_lookup elems (pfx2asNew dir) (P, A)
  have hbase : alLookup (P, A) (pfx2asNew dir).pfx2as_map = none := rfl
  rw [hbase] at h
  have hc := pfx2asCodeCount_eq_spec elems P A
  constructor
  · rw [h, ← hc]
    by_cases h0 : pfx2asCodeCount elems (P, A) = 0 <;> simp [h0]
  · rw [h, ← hc]
    by_cases h0 : pfx2asCodeCount elems (P, A) = 0 <;> simp [h0]

/-- C6 (confirmed): for a qualifying ANNOUNCE element, every consecutive pair
(a, b) of the usable path as received bumps exactly the non-canonicalized key
(a, b, 0) — once per occurrence of the pair — and inserts the observing peer
IP into that key's observer set, while every other key keeps its value; and
when the path holds no Tier-1 AS, no key with a nonzero relationship code
changes, so the message contributes only code-0 entries. -/
theorem as2rel_code0_characterization (e : BgpElem) (s : As2relState) (path : List Nat)
    (hq : as2relQualifies e = some path) :
    (∀ a b : Nat,
      alLookup ((a, b, 0) : As2relKey) (as2relProcessEntry e s).as2rel_map =
        if countL (a, b) (adjPairs path) = 0
        then alLookup ((a, b, 0) : As2relKey) s.as2rel_map
        else some (((alLookup ((a, b, 0) : As2relKey) s.as2rel_map).getD (0, ∅)).1
                     + countL (a, b) (adjPairs path),
                   insert e.peer_ip
                     ((alLookup ((a, b, 0) : As2relKey) s.as2rel_map).getD (0, ∅)).2))
    ∧ ((path.any (fun x => TIER1.contains x)) = false →
        ∀ k : As2relKey, k.2.2 ≠ 0 →
          alLookup k (as2relProcessEntry e s).as2rel_map = alLookup k s.as2rel_map) := by
  exact ⟨fun a b => as2relProcess_lookup_code0 e s path hq a b,
         fun hnt k hk => as2relProcess_preserves_nonzero_rel e s path hq hnt k hk⟩

/-- C6 (witness): the characterization applied to a message with the
Tier-1-free path [64500, 64501]: the key (64500, 64501, 0) is stored with
count 1 and observer 100, while the swapped key (64501, 64500, 0) stays
absent — code-0 keys are not canonicalized by numeric order. -/
theorem as2rel_code0_characterization_witness :
    as2relQualifies exElemB = some [64500, 64501]
    ∧ alLookup ((64500, 64501, 0) : As2relKey)
        (as2relProcessEntry exElemB (as2relNew "results")).as2rel_map = some (1, {100})
    ∧ alLookup ((64501, 64500, 0) : As2relKey)
        (as2relProcessEntry exElemB (as2relNew "results")).as2rel_map = none := by
  have h := as2rel_code0_characterization exElemB (as2relNew "results") [64500, 64501]
    (by decide)
  refine ⟨by decide, ?_, ?_⟩
  · rw [h.1 64500 64501]
    decide
  · rw [h.1 64501 64500]
    decide

/-- C7 (confirmed): every element — announce or withdraw — creates the peer
record if absent; a withdraw seen for an unknown peer leaves a record with
zero prefix counts; non-announce elements change nothing else, and elements
never touch other peers' records; an announce with a length-zero IPv4 network
sets the v4 default flag and still inserts the network into the set; and the
spec's two-announce example yields v4-default true with an IPv4 network count
of 2. -/
theorem peer_stats_process_entry_spec (e : BgpElem) (s : PeerStatsState) (v : PeerInfo)
    (ip2 : IpAddr) (a l : Nat) :
    ((alLookup e.peer_ip (peerStatsProcessEntry e s).peer_info_map).isSome = true)
    ∧ (e.elem_type = .withdraw → alLookup e.peer_ip s.peer_info_map = none →
        (alLookup e.peer_ip (peerStatsProcessEntry e s).peer_info_map).map peerInfoToEntry
          = some { ip := e.peer_ip, collector := s.rib_meta.map (fun r => r.collector),
                   asn := e.peer_asn, num_v4_pfxs := 0, num_v6_pfxs := 0,
                   num_connected_asns := 0, has_v4_default := false,
                   has_v6_default := false })
    ∧ (e.elem_type = .withdraw → alLookup e.peer_ip s.peer_info_map = some v →
        alLookup e.peer_ip (peerStatsProcessEntry e s).peer_info_map = some v)
    ∧ (ip2 ≠ e.peer_ip →
        alLookup ip2 (peerStatsProcessEntry e s).peer_info_map
          = alLookup ip2 s.peer_info_map)
    ∧ (e.elem_type = .announce → e.pfx = .v4 a l →
        ((alLookup e.peer_ip (peerStatsProcessEntry e s).peer_info_map).getD
            (PeerInfo.new_from_ip 0 0 none)).ipv4_default
          = (if l = 0 then true
             else ((alLookup e.peer_ip s.peer_info_map).getD
                 (PeerInfo.new_from_ip e.peer_ip e.peer_asn
                   (s.rib_meta.map (fun r => r.collector)))).ipv4_default)
        ∧ (a, l) ∈ ((alLookup e.peer_ip (peerStatsProcessEntry e s).peer_info_map).getD
            (PeerInfo.new_from_ip 0 0 none)).ipv4_pfxs)
    ∧ ((alLookup exPeerIp (peerStatsRun [exElemDef, exElemPfx]
          (peerStatsNew "results")).peer_info_map).map peerInfoToEntry
        = some { ip := exPeerIp, collector := none, asn := 64500, num_v4_pfxs := 2,
                 num_v6_pfxs := 0, num_connected_asns := 1, has_v4_default := true,
                 has_v6_default := false }) := by
  have hl := peerStatsProcess_lookup e s
  refine ⟨?_, ?_, ?_, ?_, ?_, by decide⟩
  · rw [hl e.peer_ip, if_pos rfl]
    rfl
  · intro hw hnone
    rw [hl e.peer_ip, if_pos rfl, hnone]
    simp [peerStatsUpdateInfo_withdraw e _ hw, peerInfoToEntry, PeerInfo.new_from_ip]
  · intro hw hsome
    rw [hl e.peer_ip, if_pos rfl, hsome]
    simp [peerStatsUpdateInfo_withdraw e v hw]
  · intro hne
    rw [hl ip2, if_neg hne]
  · intro ha hp
    rw [hl e.peer_ip, if_pos rfl]
    have hu := peerStatsUpdateInfo_v4 e ((alLookup e.peer_ip s.peer_info_map).getD
      (PeerInfo.new_from_ip e.peer_ip e.peer_asn
        (s.rib_meta.map (fun r => r.collector)))) a l ha hp
    simpa using hu

/-- C7 (witness): the theorem applied to a withdraw from the unknown peer 200:
the created record serializes with zero counts and cleared flags. -/
theorem peer_stats_process_entry_spec_witness :
    (alLookup (200 : IpAddr)
        (peerStatsProcessEntry exElemW (peerStatsNew "results")).peer_info_map).map
        peerInfoToEntry
      = some { ip := 200, collector := none, asn := 64499, num_v4_pfxs := 0,
               num_v6_pfxs := 0, num_connected_asns := 0, has_v4_default := false,
               has_v6_default := false } := by
  have h := (peer_stats_process_entry_spec exElemW (peerStatsNew "results")
    (PeerInfo.new_from_ip 0 0 none) 0 0 0).2.1 rfl rfl
  exact h

/-- C8 (confirmed): summarize merges are additive per key: the merged pfx2as
count under a key is the sum of that key's counts across the folded artifacts;
the merged as2rel value under an exact (asn1, asn2, code) key sums both the
paths count and the peers count (observer counts summed, not re-deduplicated);
and summarizing a list with no readable artifact under ignore-errors yields an
empty merged result, not a failure. -/
theorem summarize_merges_additive (docs1 : List Prefix2AsCollectorJson) (k1 : IpNet × Nat)
    (docs2 : List As2relCollectorJson) (k2 : As2relKey) (s1 : Pfx2asState)
    (inputs0 : List (RibMeta × Option Prefix2AsCollectorJson))
    (h0 : ∀ i ∈ inputs0, i.2 = none) :
    ((alLookup k1 (docs1.foldl pfx2asMergeStep [])).getD 0
        = (docs1.map (fun d => pfx2asDocCount d k1)).sum)
    ∧ ((alLookup k2 (docs2.foldl as2relMergeStep [])).getD (0, 0)
        = ((docs2.map (fun d => as2relDocPaths d k2)).sum,
           (docs2.map (fun d => as2relDocPeers d k2)).sum))
    ∧ (pfx2asSummarizeLatest s1 inputs0 true
        = .ok { rib_dump_urls := inputs0.map (fun i => i.1.rib_dump_url),
                pfx2as := [] }) := by
  refine ⟨?_, ?_, ?_⟩
  · have h := pfx2asMergeFold_lookup docs1 [] k1
    simpa [alLookup] using h
  · have h := as2relMergeFold_lookup docs2 [] k2
    simpa [alLookup] using h
  · rw [pfx2asSummarize_ignore, filterMap_all_none inputs0 h0]
    rfl

/-- C8 (witness): counts 2 and 3 for one key merge to 5; as2rel values (5, 2)
and (7, 4) under one exact key merge to (12, 6); one unreadable artifact under
ignore-errors yields the empty summary. -/
theorem summarize_merges_additive_witness :
    (alLookup (IpNet.v4 1 24, 65001)
        ([exPfxDoc1, exPfxDoc2].foldl pfx2asMergeStep [])).getD 0 = 5
    ∧ (alLookup ((1, 2, 0) : As2relKey)
        ([exRelDoc1, exRelDoc2].foldl as2relMergeStep [])).getD (0, 0) = (12, 6)
    ∧ pfx2asSummarizeLatest (pfx2asNew "results") [(exMeta1, none)] true
        = .ok { rib_dump_urls := ["http://archive.example/rib1.bz2"], pfx2as := [] } := by
  have h := summarize_merges_additive [exPfxDoc1, exPfxDoc2] (IpNet.v4 1 24, 65001)
    [exRelDoc1, exRelDoc2] ((1, 2, 0) : As2relKey) (pfx2asNew "results")
    [(exMeta1, none)] (by simp)
  refine ⟨h.1.trans (by decide), h.2.1.trans (by decide), ?_⟩
  rw [h.2.2]
  rfl

/-- C9 (confirmed): for every processor's `summarize_latest`, with
ignore-errors set an unreadable per-snapshot artifact is skipped and the fold
continues — the call succeeds and the merged content equals the fold over the
readable artifacts alone; with ignore-errors unset the call returns an error
as soon as any artifact is unreadable, before any write happens, so the
previously written summary artifact is left unchanged. -/
theorem summarize_error_handling
    (s1 : Pfx2asState) (s2 : As2relState) (s3 : PeerStatsState) (s4 : Pfx2distState)
    (in1 : List (RibMeta × Option Prefix2AsCollectorJson))
    (in2 : List (RibMeta × Option As2relCollectorJson))
    (in3 : List (RibMeta × Option PeerInfoCollectorJson))
    (in4 : List (RibMeta × Option Prefix2DistCollectorJson))
    (p1 : Option Prefix2AsSummaryJson) (p2 : Option As2relSummaryJson)
    (p3 : Option PeerInfoSummaryJson) (p4 : Option Prefix2DistSummaryJson)
    (h1 : ∃ i ∈ in1, i.2 = none) (h2 : ∃ i ∈ in2, i.2 = none)
    (h3 : ∃ i ∈ in3, i.2 = none) (h4 : ∃ i ∈ in4, i.2 = none) :
    (isErr (pfx2asSummarizeLatest s1 in1 true) = false
      ∧ (pfx2asSummarizeLatest s1 in1 true).map (fun o => o.pfx2as)
          = (pfx2asSummarizeLatest s1 (in1.filter (fun i => i.2.isSome)) true).map
              (fun o => o.pfx2as)
      ∧ isErr (pfx2asSummarizeLatest s1 in1 false) = true
      ∧ summarizeStore (pfx2asSummarizeLatest s1 in1 false) p1 = p1)
    ∧ (isErr (as2relSummarizeLatest s2 in2 true) = false
      ∧ (as2relSummarizeLatest s2 in2 true).map (fun o => o.as2rel)
          = (as2relSummarizeLatest s2 (in2.filter (fun i => i.2.isSome)) true).map
              (fun o => o.as2rel)
      ∧ isErr (as2relSummarizeLatest s2 in2 false) = true
      ∧ summarizeStore (as2relSummarizeLatest s2 in2 false) p2 = p2)
    ∧ (isErr (peerStatsSummarizeLatest s3 in3 true) = false
      ∧ isErr (peerStatsSummarizeLatest s3 in3 false) = true
      ∧ summarizeStore (peerStatsSummarizeLatest s3 in3 false) p3 = p3)
    ∧ (isErr (pfx2distSummarizeLatest s4 in4 true) = false
      ∧ (pfx2distSummarizeLatest s4 in4 true).map (fun o => o.pfx2dist)
          = (pfx2distSummarizeLatest s4 (in4.filter (fun i => i.2.isSome)) true).map
              (fun o => o.pfx2dist)
      ∧ isErr (pfx2distSummarizeLatest s4 in4 false) = true
      ∧ summarizeStore (pfx2distSummarizeLatest s4 in4 false) p4 = p4) := by
  refine ⟨⟨?_, ?_, ?_, ?_⟩, ⟨?_, ?_, ?_, ?_⟩, ⟨?_, ?_, ?_⟩, ⟨?_, ?_, ?_, ?_⟩⟩
  · rw [pfx2asSummarize_ignore]
    rfl
  · rw [pfx2asSummarize_ignore, pfx2asSummarize_ignore, filterMap_filter_isSome]
    rfl
  · exact pfx2asSummarize_err s1 in1 h1
  · exact summarizeStore_err _ p1 (pfx2asSummarize_err s1 in1 h1)
  · rw [as2relSummarize_ignore]
    rfl
  · rw [as2relSummarize_ignore, as2relSummarize_ignore, filterMap_filter_isSome]
    rfl
  · exact as2relSummarize_err s2 in2 h2
  · exact summarizeStore_err _ p2 (as2relSummarize_err s2 in2 h2)
  · rw [peerStatsSummarize_ignore]
    rfl
  · exact peerStatsSummarize_err s3 in3 h3
  · exact summarizeStore_err _ p3 (peerStatsSummarize_err s3 in3 h3)
  · rw [pfx2distSummarize_ignore]
    rfl
  · rw [pfx2distSummarize_ignore, pfx2distSummarize_ignore, filterMap_filter_isSome]
    rfl
  · exact pfx2distSummarize_err s4 in4 h4
  · exact summarizeStore_err _ p4 (pfx2distSummarize_err s4 in4 h4)

/-- C9 (witness): the theorem applied to fresh processors with one unreadable
artifact for `exMeta1` each, and a non-trivial previously written pfx2as
summary: the strict calls all fail and that prior summary survives unchanged. -/
theorem summarize_error_handling_witness :
    isErr (pfx2asSummarizeLatest (pfx2asNew "results") [(exMeta1, none)] false) = true
    ∧ summarizeStore (pfx2asSummarizeLatest (pfx2asNew "results") [(exMeta1, none)] false)
        (some exPfxPrev) = some exPfxPrev
    ∧ isErr (as2relSummarizeLatest (as2relNew "results") [(exMeta1, none)] false) = true
    ∧ isErr (peerStatsSummarizeLatest (peerStatsNew "results") [(exMeta1, none)] false) = true
    ∧ isErr (pfx2distSummarizeLatest (pfx2distNew "results") [(exMeta1, none)] false) = true := by
  have h := summarize_error_handling (pfx2asNew "results") (as2relNew "results")
    (peerStatsNew "results") (pfx2distNew "results")
    [(exMeta1, none)] [(exMeta1, none)] [(exMeta1, none)] [(exMeta1, none)]
    (some exPfxPrev) none none none
    (by simp) (by simp) (by simp) (by simp)
  exact ⟨h.1.2.2.1, h.1.2.2.2, h.2.1.2.2.1, h.2.2.1.2.1, h.2.2.2.2.2.1⟩

/-- C10 (confirmed): for every processor variant, calling `output_paths` or
`to_result_string` — and hence `output` — on a freshly constructed processor,
before any reset has supplied snapshot metadata, panics on the unset
`rib_meta` (modelled as the error outcome) instead of returning a `None`
document or path list. -/
theorem output_before_reset_panics (dir : String) (fs1 : Pfx2asFs) (fs2 : PeerStatsFs)
    (fs3 : As2relFs) (fs4 : Pfx2distFs) :
    isErr (pfx2asOutputPaths (pfx2asNew dir)) = true
    ∧ isErr (pfx2asToResultString (pfx2asNew dir)) = true
    ∧ isErr (pfx2asOutput (pfx2asNew dir) fs1) = true
    ∧ isErr (peerStatsOutputPaths (peerStatsNew dir)) = true
    ∧ isErr (peerStatsToResultString (peerStatsNew dir)) = true
    ∧ isErr (peerStatsOutput (peerStatsNew dir) fs2) = true
    ∧ isErr (as2relOutputPaths (as2relNew dir)) = true
    ∧ isErr (as2relToResultString (as2relNew dir)) = true
    ∧ isErr (as2relOutput (as2relNew dir) fs3) = true
    ∧ isErr (pfx2distOutputPaths (pfx2distNew dir)) = true
    ∧ isErr (pfx2distToResultString (pfx2distNew dir)) = true
    ∧ isErr (pfx2distOutput (pfx2distNew dir) fs4) = true := by
  exact ⟨rfl, rfl, rfl, rfl, rfl, rfl, rfl, rfl, rfl, rfl, rfl, rfl⟩
